import Mathlib

/-!
# Food-order application: cart store, checkout and order lifecycle

A shallow embedding of the session cart routes of `server.js`
(`GET /cart`, `POST /cart/add`, `POST /cart/remove`, `POST /cart/checkout`),
of the order routes that change an order's status, of the order delete, paid-orders and
admin listing routes, of the `requireRole` middleware and of
`controllers/orderController.js`, together with the properties of these operations.

Modelling conventions.

* Identifiers (`restaurantId`, `itemId`, user and order ids) are strings. A missing
  request field (`undefined`) is `none`; JavaScript truthiness of a string field is
  "present and not the empty string".
* An `ObjectId` is given by its string form, 24 hexadecimal digits in lower case. The schema
  casts `_id`, `customer`, `restaurant` and `rider` to `ObjectId`, in documents and in query
  filters: a string of 24 hexadecimal digits in either case casts, any other string is a
  cast error, and two strings name the same document when they cast to the same `ObjectId`.
* The cart handlers are generic in the type `N` of numbers: they use its zero, its addition,
  its multiplication and the conversion of a quantity, and no law of arithmetic, so that
  they apply to JavaScript numbers as they are. `Cart`, `CartItem` and `AddRequest` are the
  instances with exact (rational) prices, used where sample values are computed. A quantity
  is a natural number.
* The session is passed explicitly: an operation takes the session cart
  (`none` is `null`/`undefined`) and returns the new one.
* The order collection is a list of documents, `findById` returns the first document
  with the given `_id`. The outcome of a storage write is an explicit input `dbOk`.
* `new Date()` is an explicit input `now`.
-/

namespace FoodOrder

/-! ## Cart store (`server.js`, lines 149-210) -/

/-- A cart line `{ itemId, name, price, qty }`, with prices in the number type `N`. -/
structure CartItemOf (N : Type) where
  itemId : String
  name : String
  price : N
  qty : Nat
  deriving DecidableEq, Repr

/-- The session cart `{ restaurantId, items, totalPrice }`, with prices in `N`. -/
structure CartOf (N : Type) where
  restaurantId : String
  items : List (CartItemOf N)
  totalPrice : N
  deriving DecidableEq, Repr

/-- The body of `POST /cart/add`; `price` is the value of `Number(price)`, a number of
type `N`. -/
structure AddRequestOf (N : Type) where
  restaurantId : Option String
  itemId : Option String
  name : Option String
  price : Option N
  deriving DecidableEq, Repr

/-- A cart line with exact prices. -/
abbrev CartItem : Type := CartItemOf Rat

/-- A cart with exact prices. -/
abbrev Cart : Type := CartOf Rat

/-- A request to add an item with an exact price. -/
abbrev AddRequest : Type := AddRequestOf Rat

/-- JavaScript truthiness of a string. -/
def truthyStr (s : String) : Bool := s != ""

/-- JavaScript truthiness of an optional string field. -/
def truthy : Option String → Bool
  | some s => truthyStr s
  | none => false

/-- The reducer `items.reduce((s, i) => s + i.price * i.qty, 0)`: a left fold with the
addition and multiplication of `N`, starting from its zero. -/
def reduceTotal {N : Type} [Zero N] [Add N] [Mul N] [NatCast N]
    (items : List (CartItemOf N)) : N :=
  items.foldl (fun s i => s + i.price * (i.qty : N)) 0

/-- The effect of `existing.qty += 1` where `existing` is the first line found with the
given `itemId`: that line is updated in place. -/
def incrementFirst {N : Type} (itemId : String) : List (CartItemOf N) → List (CartItemOf N)
  | [] => []
  | i :: rest =>
    if i.itemId = itemId then { i with qty := i.qty + 1 } :: rest
    else i :: incrementFirst itemId rest

/-- The validation of `POST /cart/add` (line 163): the request passes when
`restaurantId`, `itemId` and `name` are truthy and `price` is neither `undefined`
nor `null`. -/
def validAdd {N : Type} (req : AddRequestOf N) : Bool :=
  truthy req.restaurantId && truthy req.itemId && truthy req.name && req.price.isSome

/-- The fresh cart `{ restaurantId, items: [], totalPrice: 0 }`. -/
def freshCart {N : Type} [Zero N] (restaurantId : String) : CartOf N :=
  { restaurantId := restaurantId, items := [], totalPrice := 0 }

/-- Lines 181-187 of `POST /cart/add`, "add or increment": when `items.find` returns a
line its `qty` is incremented, otherwise a new line with `qty: 1` is pushed. -/
def addOrIncrement {N : Type} (items : List (CartItemOf N)) (itemId name : String)
    (price : N) : List (CartItemOf N) :=
  match items.find? (fun i => i.itemId = itemId) with
  | some _ => incrementFirst itemId items
  | none => items ++ [{ itemId := itemId, name := name, price := price, qty := 1 }]

/-- Lines 169-189 of `POST /cart/add`: the body of the handler once the request has
passed validation. -/
def addToCart {N : Type} [Zero N] [Add N] [Mul N] [NatCast N] (cart : Option (CartOf N))
    (restaurantId itemId name : String) (price : N) : CartOf N :=
  -- init cart if needed
  let c0 : CartOf N := match cart with
    | some c => c
    | none => freshCart restaurantId
  -- if switching restaurant, reset cart
  let c1 : CartOf N :=
    if truthyStr c0.restaurantId && c0.restaurantId != restaurantId then
      freshCart restaurantId
    else { c0 with restaurantId := restaurantId }
  -- add or increment
  let items := addOrIncrement c1.items itemId name price
  { c1 with items := items, totalPrice := reduceTotal items }

/-- The handler `POST /cart/add` as a function on the session cart. A request that fails
validation leaves the session untouched. -/
def cartAdd {N : Type} [Zero N] [Add N] [Mul N] [NatCast N] (cart : Option (CartOf N))
    (req : AddRequestOf N) : Option (CartOf N) :=
  match req.restaurantId, req.itemId, req.name, req.price with
  | some restaurantId, some itemId, some name, some price =>
    if !truthyStr restaurantId || !truthyStr itemId || !truthyStr name then cart
    else some (addToCart cart restaurantId itemId name price)
  | _, _, _, _ => cart

/-- The handler `POST /cart/remove`; `itemId` is `req.body.itemId`. -/
def cartRemove {N : Type} [Zero N] [Add N] [Mul N] [NatCast N] (cart : Option (CartOf N))
    (itemId : Option String) : Option (CartOf N) :=
  match cart with
  | none => none
  | some c =>
    let items := c.items.filter (fun i => some i.itemId != itemId)
    if items.length = 0 then none
    else some { c with items := items, totalPrice := reduceTotal items }

/-- What `GET /cart` hands to the view. -/
structure CartViewOf (N : Type) where
  items : List (CartItemOf N)
  totalPrice : N
  restaurantId : Option String
  deriving DecidableEq, Repr

/-- A cart view with exact prices. -/
abbrev CartView : Type := CartViewOf Rat

/-- The handler `GET /cart`:
`req.session.cart || { items: [], totalPrice: 0, restaurantId: null }`. -/
def cartView {N : Type} [Zero N] (cart : Option (CartOf N)) : CartViewOf N :=
  match cart with
  | some c => { items := c.items, totalPrice := c.totalPrice, restaurantId := some c.restaurantId }
  | none => { items := [], totalPrice := 0, restaurantId := none }

/-! ## Orders (`models/Order.js`) and the order store -/

/-- An order line, `orderItemSchema`. -/
structure OrderItem where
  menuItem : Option String
  name : String
  price : Rat
  qty : Nat
  deriving DecidableEq, Repr

/-- An entry of `trackingHistory`. -/
structure TrackingEntry where
  status : String
  timestamp : Nat
  deriving DecidableEq, Repr

/-- An order document, `orderSchema`. `rider` is an `ObjectId` or `null`. -/
structure Order where
  id : String
  customer : String
  restaurant : String
  rider : Option String
  items : List OrderItem
  totalPrice : Rat
  status : String
  trackingHistory : List TrackingEntry
  deliveryAddress : Option String
  deriving DecidableEq, Repr

/-- The `enum` of the `status` path of `orderSchema`. -/
def schemaStatusEnum : List String := ["Pending", "Paid", "PickedUp", "Delivered", "Cancelled"]

/-- The result of an `async` call of the order layer: the value it resolves to, or the
message of the error it rejects with. The controller throws `'Invalid status'`,
`'Order not found'` and `'MenuItem not found: ' + id`; `"ValidationError"` stands for the
rejection of `save()` when `status` is outside the schema `enum` or a path failed to cast,
`"CastError"` for the rejection of a query whose id does not cast to an `ObjectId`, and
`"PersistenceFailure"` for a failure of the storage layer. -/
inductive Outcome (α : Type) where
  | ok (value : α)
  | error (message : String)
  deriving DecidableEq, Repr

/-- The character class `[0-9a-fA-F]`. -/
def isHexChar (c : Char) : Bool :=
  (48 ≤ c.toNat && c.toNat ≤ 57) || (97 ≤ c.toNat && c.toNat ≤ 102) ||
    (65 ≤ c.toNat && c.toNat ≤ 70)

/-- The test `id.match(/^[0-9a-fA-F]{24}$/)`: exactly 24 characters, all hexadecimal. This
is the format of the strings that cast to an `ObjectId`, and the test `server.js` itself
makes to "prevent mongoose CastError". -/
def matchesObjectId (s : String) : Bool :=
  s.toList.length = 24 && s.toList.all isHexChar

/-- The cast of a string to an `ObjectId`, which the schema applies to `_id`, `customer`,
`restaurant` and `rider` in documents and in query filters. The `ObjectId` is given by its
string form, the 24 hexadecimal digits in lower case; `none` is a `CastError`. -/
def castObjectId (s : String) : Option String :=
  if matchesObjectId s then some (String.mk (s.toList.map Char.toLower)) else none

/-- Whether two strings cast to the same `ObjectId`. -/
def sameObjectId (a b : String) : Bool :=
  match castObjectId a, castObjectId b with
  | some x, some y => x = y
  | _, _ => false

/-- The query `Order.findById(id)`: the id is cast, a `CastError` rejects the query, and the
first document with this `ObjectId` is returned, if any. -/
def findById (store : List Order) (id : String) : Outcome (Option Order) :=
  match castObjectId id with
  | none => .error "CastError"
  | some _ => .ok (store.find? (fun o => sameObjectId o.id id))

/-- Replace the first document whose `_id` is the `ObjectId` of `id` by its image under
`f`. -/
def updateFirst (id : String) (f : Order → Order) : List Order → List Order
  | [] => []
  | o :: rest => if sameObjectId o.id id then f o :: rest else o :: updateFirst id f rest

/-- The casts that `new Order({ ... })` applies to `customer`, `restaurant` and `rider`;
`none` when one of them fails, which `save()` then reports. -/
def castDocument (o : Order) : Option Order :=
  match castObjectId o.customer, castObjectId o.restaurant with
  | some customer, some restaurant =>
    match o.rider with
    | none => some { o with customer := customer, restaurant := restaurant }
    | some r =>
      match castObjectId r with
      | some rider =>
        some { o with customer := customer, restaurant := restaurant, rider := some rider }
      | none => none
  | _, _ => none

/-- The validation `save()` and `Order.create` run on a new document before writing: the
`status` must be in the schema `enum` and `customer`, `restaurant` and `rider` must have
cast to `ObjectId`s. -/
def validates (o : Order) : Bool :=
  schemaStatusEnum.contains o.status && (castDocument o).isSome

/-- The call `doc.save()` on a new document: validation, then the insert of the cast
document, whose outcome is `dbOk`. -/
def saveNew (dbOk : Bool) (store : List Order) (doc : Order) : Outcome (List Order) :=
  if !validates doc then .error "ValidationError"
  else if !dbOk then .error "PersistenceFailure"
  else .ok (store ++ [(castDocument doc).getD doc])

/-- The call `doc.save()` on a document obtained from `findById` whose `status`,
`trackingHistory` and possibly `rider` were changed: validation of `status` (the cast of
`rider` was made when it was assigned), then the update of the stored document, whose
outcome is `dbOk`. -/
def saveExisting (dbOk : Bool) (store : List Order) (doc : Order) : Outcome (List Order) :=
  if !schemaStatusEnum.contains doc.status then .error "ValidationError"
  else if !dbOk then .error "PersistenceFailure"
  else .ok (updateFirst doc.id (fun _ => doc) store)

/-- The call `Order.findByIdAndUpdate(id, update)`: the id is cast, the update is applied to
the stored document without validation and without touching any other path; `none` when
the cast or the storage layer fails. -/
def findByIdAndUpdate (dbOk : Bool) (store : List Order) (id : String)
    (update : Order → Order) : Option (List Order) :=
  if dbOk && (castObjectId id).isSome then some (updateFirst id update store) else none

/-! ## Responses and the role guard (`middleware/role.js`) -/

/-- The session user, `req.session.user`. -/
structure SessionUser where
  id : String
  role : String
  deriving DecidableEq, Repr

/-- What a handler answers. -/
inductive Response where
  | redirect (url : String)
  | send (code : Nat) (body : String)
  /-- An awaited promise rejected outside any `try`: the handler sends nothing. -/
  | unhandledRejection
  deriving DecidableEq, Repr

/-- The middleware `requireRole(...roles)`: `none` is `next()`. -/
def requireRole (roles : List String) (user : Option SessionUser) : Option Response :=
  match user with
  | none => some (.redirect "/login")
  | some u => if !roles.contains u.role then some (.send 403 "Forbidden") else none

/-! ## Checkout and the order routes of `server.js` -/

/-- The state after `POST /cart/checkout`: the session cart, the order collection, the
documents on which `save()` was called, and the response. -/
structure CheckoutResult where
  cart : Option Cart
  store : List Order
  saveCalls : List Order
  response : Response
  deriving DecidableEq, Repr

/-- The document `new Order({ customer, restaurant, items, totalPrice, status: 'Pending' })`
built by `POST /cart/checkout`. `rider` takes its schema default `null`; no
`trackingHistory` and no `deliveryAddress` are passed, so the array path is empty and the
address is absent. `newId` is the generated `_id`. -/
def checkoutOrder (newId userId : String) (cart : Cart) : Order :=
  { id := newId
    customer := userId
    restaurant := cart.restaurantId
    rider := none
    items := cart.items.map
      (fun i => { menuItem := none, name := i.name, price := i.price, qty := i.qty })
    totalPrice := cart.totalPrice
    status := "Pending"
    trackingHistory := []
    deliveryAddress := none }

/-- The handler `POST /cart/checkout` for the logged-in user `userId`. -/
def cartCheckout (dbOk : Bool) (newId userId : String) (cart : Option Cart)
    (store : List Order) : CheckoutResult :=
  match cart with
  | none => { cart := none, store := store, saveCalls := [], response := .redirect "/cart" }
  | some c =>
    if c.items.length = 0 then
      { cart := some c, store := store, saveCalls := [], response := .redirect "/cart" }
    else
      let newOrder := checkoutOrder newId userId c
      match saveNew dbOk store newOrder with
      | .ok store2 =>
        { cart := none, store := store2, saveCalls := [newOrder], response := .redirect "/orders" }
      | .error _ =>
        { cart := some c, store := store, saveCalls := [newOrder],
          response := .send 500 "Checkout failed" }

/-- The body of `POST /orders`, the immediate single-item order. -/
structure LegacyOrderRequest where
  restaurantId : Option String
  itemName : Option String
  price : Option Rat
  deriving DecidableEq, Repr

/-- The handler `POST /orders` (legacy single-item order) for the logged-in user `userId`;
`Number(price || 0)` is `price` when present and `0` otherwise. -/
def legacyOrder (dbOk : Bool) (newId userId : String) (req : LegacyOrderRequest)
    (store : List Order) : Response × List Order :=
  match req.restaurantId, req.itemName with
  | some restaurantId, some itemName =>
    if !truthyStr restaurantId || !truthyStr itemName then (.send 400 "Bad Request", store)
    else
      let newOrder : Order :=
        { id := newId
          customer := userId
          restaurant := restaurantId
          rider := none
          items := [{ menuItem := none, name := itemName, price := req.price.getD 0, qty := 1 }]
          totalPrice := req.price.getD 0
          status := "Pending"
          trackingHistory := []
          deliveryAddress := none }
      match saveNew dbOk store newOrder with
      | .ok store2 => (.redirect ("/restaurants/" ++ restaurantId), store2)
      | .error _ => (.send 500 "Order create failed", store)
  | _, _ => (.send 400 "Bad Request", store)

/-- The handler `POST /rider/pickup/:id`:
`Order.findByIdAndUpdate(id, { status: 'PickedUp', rider: req.session.user.id })`; the update
casts `rider`, and a failing cast rejects the call. -/
def riderPickup (dbOk : Bool) (user : Option SessionUser) (store : List Order) (id : String) :
    Response × List Order :=
  match requireRole ["rider"] user with
  | some resp => (resp, store)
  | none =>
    match user.bind (fun u => castObjectId u.id) with
    | none => (.unhandledRejection, store)
    | some rider =>
      match findByIdAndUpdate dbOk store id
          (fun o => { o with status := "PickedUp", rider := some rider }) with
      | some store2 => (.redirect "/rider/pickup", store2)
      | none => (.unhandledRejection, store)

/-- The handler `POST /rider/delivered/:id`:
`Order.findByIdAndUpdate(id, { status: 'Delivered' })`. -/
def riderDelivered (dbOk : Bool) (user : Option SessionUser) (store : List Order)
    (id : String) : Response × List Order :=
  match requireRole ["rider"] user with
  | some resp => (resp, store)
  | none =>
    match findByIdAndUpdate dbOk store id (fun o => { o with status := "Delivered" }) with
    | some store2 => (.redirect "/rider/delivered", store2)
    | none => (.unhandledRejection, store)

/-- The handler `POST /admin/orders/update/:id`:
`Order.findByIdAndUpdate(id, { status })` with `status` taken from the body; an absent
`status` updates nothing. -/
def adminOrdersUpdate (dbOk : Bool) (user : Option SessionUser) (store : List Order)
    (id : String) (status : Option String) : Response × List Order :=
  match requireRole ["admin"] user with
  | some resp => (resp, store)
  | none =>
    match findByIdAndUpdate dbOk store id
        (fun o => match status with
          | some s => { o with status := s }
          | none => o) with
    | some store2 => (.redirect "/admin/orders", store2)
    | none => (.unhandledRejection, store)

/-! ## The order controller (`controllers/orderController.js`) -/

/-- The fields of a `MenuItem` document that `createOrder` reads. The model file is not part
of the sources at hand; the menu is an input of `createOrder`. -/
structure MenuItem where
  id : String
  name : String
  price : Rat
  deriving DecidableEq, Repr

/-- An element `{ menuItemId, qty }` of the `items` argument of `createOrder`. -/
structure ItemRequest where
  menuItemId : String
  qty : Nat
  deriving DecidableEq, Repr

/-- The loop of `createOrder`: `built` and `total` after the remaining `items`, or the
first menu item id that does not cast (`MenuItem.findById` rejects) or is missing. -/
def buildItems (menu : List MenuItem) :
    List ItemRequest → List OrderItem → Rat → Outcome (List OrderItem × Rat)
  | [], built, total => .ok (built, total)
  | it :: rest, built, total =>
    match castObjectId it.menuItemId with
    | none => .error "CastError"
    | some _ =>
      match menu.find? (fun m => sameObjectId m.id it.menuItemId) with
      | none => .error ("MenuItem not found: " ++ it.menuItemId)
      | some m =>
        buildItems menu rest
          (built ++ [{ menuItem := some m.id, name := m.name, price := m.price, qty := it.qty }])
          (total + m.price * (it.qty : Rat))

/-- The function `createOrder({ customerId, restaurantId, items, deliveryAddress })`;
`status` takes its schema default `'Pending'`. Returns the outcome (the document as
`Order.create` cast and stored it) and the order collection afterwards. -/
def createOrder (dbOk : Bool) (now : Nat) (newId : String) (menu : List MenuItem)
    (store : List Order) (customerId restaurantId : String) (items : List ItemRequest)
    (deliveryAddress : Option String) : Outcome Order × List Order :=
  match buildItems menu items [] 0 with
  | .error e => (.error e, store)
  | .ok (built, total) =>
    let order : Order :=
      { id := newId
        customer := customerId
        restaurant := restaurantId
        rider := none
        items := built
        totalPrice := total
        status := "Pending"
        trackingHistory := [{ status := "Pending", timestamp := now }]
        deliveryAddress := deliveryAddress }
    match saveNew dbOk store order with
    | .ok store2 => (.ok ((castDocument order).getD order), store2)
    | .error e => (.error e, store)

/-- The list `allowed` of `updateOrderStatus`. -/
def allowedStatuses : List String :=
  ["Pending", "Accepted", "Preparing", "PickedUp", "OutForDelivery", "Delivered", "Cancelled"]

/-- The rider-track statuses `['PickedUp','OutForDelivery','Delivered']`. -/
def riderTrackStatuses : List String := ["PickedUp", "OutForDelivery", "Delivered"]

/-- Lines 31-35 of `updateOrderStatus`: the changes made to the fetched document. The
rider is assigned only when `actorId` is truthy, the status is a rider-track status and the
order has no rider yet; the assignment casts `actorId` to an `ObjectId`. Then `status` is set
and an entry is pushed on `trackingHistory`. The result is `none` when the cast of `actorId`
failed: the document then carries a validation error, and `save()` rejects it. -/
def applyStatus (order : Order) (status : String) (actorId : Option String) (now : Nat) :
    Option Order :=
  let order1 : Option Order :=
    if truthy actorId && riderTrackStatuses.contains status then
      if order.rider.isNone then
        match actorId.bind castObjectId with
        | some rider => some { order with rider := some rider }
        | none => none
      else some order
    else some order
  order1.map (fun o =>
    { o with
      status := status
      trackingHistory := o.trackingHistory ++ [{ status := status, timestamp := now }] })

/-- The function `updateOrderStatus(orderId, status, actorId)`; `actorId` is `none` for
`null`. Returns the outcome and the order collection afterwards. -/
def updateOrderStatus (dbOk : Bool) (now : Nat) (store : List Order) (orderId status : String)
    (actorId : Option String) : Outcome Order × List Order :=
  if !allowedStatuses.contains status then (.error "Invalid status", store)
  else
    match findById store orderId with
    | .error e => (.error e, store)
    | .ok none => (.error "Order not found", store)
    | .ok (some order) =>
      match applyStatus order status actorId now with
      | none => (.error "ValidationError", store)
      | some order2 =>
        match saveExisting dbOk store order2 with
        | .ok store2 => (.ok order2, store2)
        | .error e => (.error e, store)

/-- The sum of `price * qty` over the lines coming after a running sum `acc`, taken line
by line in the order of the lines. -/
def sumFrom {N : Type} [Add N] [Mul N] [NatCast N] (acc : N) : List (CartItemOf N) → N
  | [] => acc
  | i :: rest => sumFrom (acc + i.price * (i.qty : N)) rest

/-- The sum of `price * qty` over the lines of a cart, taken line by line from zero. -/
def lineSum {N : Type} [Zero N] [Add N] [Mul N] [NatCast N] (items : List (CartItemOf N)) :
    N :=
  sumFrom 0 items

/-- The session cart after a sequence of `POST /cart/add` requests. -/
def runAdds {N : Type} [Zero N] [Add N] [Mul N] [NatCast N] (cart : Option (CartOf N))
    (reqs : List (AddRequestOf N)) : Option (CartOf N) :=
  reqs.foldl cartAdd cart

/-- A request that changes the session cart. -/
inductive CartOp where
  | add (req : AddRequest)
  | remove (itemId : Option String)
  deriving DecidableEq, Repr

/-- The session cart after one cart request. -/
def applyCartOp (cart : Option Cart) : CartOp → Option Cart
  | .add req => cartAdd cart req
  | .remove itemId => cartRemove cart itemId

/-- The session cart after a sequence of cart requests. -/
def runCartOps (cart : Option Cart) (ops : List CartOp) : Option Cart :=
  ops.foldl applyCartOp cart

/-! ## Order queries of `server.js`: delete, paid orders, admin listing -/

/-- The filter `{ _id: id, customer }` as a test on a document. -/
def matchesIdAndCustomer (id customer : String) (o : Order) : Bool :=
  sameObjectId o.id id && sameObjectId o.customer customer

/-- The call `Order.findOneAndDelete({ _id: id, customer })`: both values of the filter are
cast, and the first document with this `_id` and this customer is removed; `none` when a
cast or the storage layer fails. -/
def findOneAndDelete (dbOk : Bool) (store : List Order) (id customer : String) :
    Option (List Order) :=
  if dbOk && (castObjectId id).isSome && (castObjectId customer).isSome then
    some (store.eraseP (matchesIdAndCustomer id customer))
  else none

/-- The handler `POST /orders/delete/:id` for the logged-in user `userId`. -/
def ordersDelete (dbOk : Bool) (userId : String) (store : List Order) (id : String) :
    Response × List Order :=
  match findOneAndDelete dbOk store id userId with
  | some store2 => (.redirect "/orders", store2)
  | none => (.send 500 "Delete failed", store)

/-- The table `statusOrder = { Paid: 1, PickedUp: 2, Delivered: 3 }`; a status that is not
a key gives `undefined`, here `none`. -/
def statusOrder (status : String) : Option Int :=
  if status = "Paid" then some 1
  else if status = "PickedUp" then some 2
  else if status = "Delivered" then some 3
  else none

/-- The comparator `(a, b) => statusOrder[a.status] - statusOrder[b.status]`. With an
`undefined` operand the difference is `NaN`, which `Array.prototype.sort` reads as `0`. -/
def compareStatus (a b : Order) : Int :=
  match statusOrder a.status, statusOrder b.status with
  | some x, some y => x - y
  | _, _ => 0

/-- The call `orders.sort(compareStatus)`. `Array.prototype.sort` is a stable sort: an
element is placed before the elements that compare greater or equal and came after it. -/
def sortByStatus (orders : List Order) : List Order :=
  orders.insertionSort (fun a b => compareStatus a b ≤ 0)

/-- The statuses listed by `GET /orders/paid`. -/
def paidStatuses : List String := ["Paid", "PickedUp", "Delivered"]

/-- The orders that `GET /orders/paid` hands to the view for the session user `userId`:
`Order.find({ customer, status: { $in: ['Paid','PickedUp','Delivered'] } })`, in the order
of the collection, then sorted by `statusOrder`. -/
def ordersPaid (store : List Order) (userId : String) : List Order :=
  sortByStatus (store.filter (fun o => o.customer = userId && paidStatuses.contains o.status))

/-- The characters that `String.prototype.trim` strips: white space and line terminators. -/
def isJsWhitespace (c : Char) : Bool :=
  [0x9, 0xA, 0xB, 0xC, 0xD, 0x20, 0xA0, 0x1680, 0x2000, 0x2001, 0x2002, 0x2003, 0x2004,
    0x2005, 0x2006, 0x2007, 0x2008, 0x2009, 0x200A, 0x2028, 0x2029, 0x202F, 0x205F, 0x3000,
    0xFEFF].contains c.toNat

/-- The method `String.prototype.trim`. -/
def jsTrim (s : String) : String :=
  String.mk ((s.toList.dropWhile isJsWhitespace).reverse.dropWhile isJsWhitespace).reverse

/-- The object `query` that `GET /admin/orders` passes to `Order.find`. -/
structure OrderQuery where
  status : Option String
  id : Option String
  deriving DecidableEq, Repr

/-- The query `Order.find(query)`. The `_id` string of the query is cast to an `ObjectId`;
the handler passes only strings that cast. -/
def findOrders (store : List Order) (query : OrderQuery) : List Order :=
  store.filter (fun o =>
    (match query.status with
      | some s => o.status = s
      | none => true) &&
    (match query.id with
      | some i => sameObjectId o.id i
      | none => true))

/-- Lines 446-449 of `GET /admin/orders`, "Filter by status": the status the query filters
on, if any. -/
def statusFilter (statusParam : Option String) : Option String :=
  match statusParam with
  | some s => if truthyStr s && s != "All" then some s else none
  | none => none

/-- Lines 443-461 of `GET /admin/orders`: the `query` object and the flag `invalidId` built
from the query string. -/
def adminOrdersQuery (statusParam idParam : Option String) : OrderQuery × Bool :=
  let status := statusFilter statusParam
  match idParam with
  | some raw =>
    if truthyStr raw then
      if matchesObjectId (jsTrim raw) then ({ status := status, id := some (jsTrim raw) }, false)
      else ({ status := status, id := none }, true)
    else ({ status := status, id := none }, false)
  | none => ({ status := status, id := none }, false)

/-- What `GET /admin/orders` does: the queries it issues to the order collection and the
`orders` and `invalidId` it renders. -/
structure AdminOrdersResult where
  queries : List OrderQuery
  orders : List Order
  invalidId : Bool
  deriving DecidableEq, Repr

/-- The handler `GET /admin/orders` for a session that passed `requireRole('admin')`;
`dbOk` is the outcome of the query. -/
def adminOrders (dbOk : Bool) (store : List Order) (statusParam idParam : Option String) :
    AdminOrdersResult :=
  match adminOrdersQuery statusParam idParam with
  | (_, true) => { queries := [], orders := [], invalidId := true }
  | (query, false) =>
    if dbOk then { queries := [query], orders := findOrders store query, invalidId := false }
    else { queries := [query], orders := [], invalidId := true }

/-- The rank of an order in `statusOrder`, with `0` for a status that is not a key. -/
def statusRank (o : Order) : Int := (statusOrder o.status).getD 0

/-- The cart line invariant: pairwise distinct `itemId`s, every `qty` at least 1, and at
least one line. -/
def LinesOk (items : List CartItem) : Prop :=
  (items.map (fun l => l.itemId)).Nodup ∧ (∀ l ∈ items, 1 ≤ l.qty) ∧ items ≠ []

/-! ## Sample data -/

def restA : String := "64b000000000000000000a01"

def restB : String := "64b000000000000000000a02"

def custC : String := "64b000000000000000000c01"

def riderR : String := "64b000000000000000000d01"

def riderS : String := "64b000000000000000000d02"

def orderId1 : String := "64b000000000000000000e01"

def menuId1 : String := "64b000000000000000000f01"

def pizzaReq : AddRequest :=
  { restaurantId := some restA, itemId := some "i1", name := some "Pizza", price := some 10 }

def pizzaLine : CartItem := { itemId := "i1", name := "Pizza", price := 10, qty := 2 }

/-- The cart of the checkout example: one line, Pizza, price 10, qty 2, total 20. -/
def pizzaCart : Cart := { restaurantId := restA, items := [pizzaLine], totalPrice := 20 }

def twoLineCart : Cart :=
  { restaurantId := restA
    items := [pizzaLine, { itemId := "i2", name := "Cola", price := 3, qty := 2 }]
    totalPrice := 26 }

/-- The order that `POST /cart/checkout` stores for `pizzaCart` and customer `custC`. -/
def pizzaOrder : Order :=
  { id := orderId1
    customer := custC
    restaurant := restA
    rider := none
    items := [{ menuItem := none, name := "Pizza", price := 10, qty := 2 }]
    totalPrice := 20
    status := "Pending"
    trackingHistory := []
    deliveryAddress := none }

/-- A delivered order with a complete history on the short track. -/
def deliveredOrder : Order :=
  { id := orderId1
    customer := custC
    restaurant := restA
    rider := some riderR
    items := [{ menuItem := none, name := "Pizza", price := 10, qty := 2 }]
    totalPrice := 20
    status := "Delivered"
    trackingHistory :=
      [{ status := "Pending", timestamp := 1 }, { status := "PickedUp", timestamp := 2 },
       { status := "Delivered", timestamp := 3 }]
    deliveryAddress := none }

/-- A pending order without rider, as `createOrder` stores it. -/
def pendingOrder : Order :=
  { id := orderId1
    customer := custC
    restaurant := restA
    rider := none
    items := [{ menuItem := some menuId1, name := "Pizza", price := 10, qty := 2 }]
    totalPrice := 20
    status := "Pending"
    trackingHistory := [{ status := "Pending", timestamp := 1 }]
    deliveryAddress := none }

def customerUser : SessionUser := { id := custC, role := "customer" }

def riderUser : SessionUser := { id := riderR, role := "rider" }

def soupReq : AddRequest :=
  { restaurantId := some restB, itemId := some "i9", name := some "Soup", price := some 4 }

/-- Two adds of the same item, a switch of restaurant, and a remove of an absent item. -/
def sampleOps : List CartOp :=
  [.add pizzaReq, .add pizzaReq, .add soupReq, .remove (some "i1")]

def soupCart : Cart :=
  { restaurantId := restB
    items := [{ itemId := "i9", name := "Soup", price := 4, qty := 1 }]
    totalPrice := 4 }

def custD : String := "64b000000000000000000c02"

/-- A paid order of customer `custC`. -/
def paidOrder : Order := { pendingOrder with id := menuId1, status := "Paid" }

/-- A collection in which the delivered order comes before the paid one. -/
def mixedStore : List Order := [deliveredOrder, paidOrder]

/-! ## Cart lemmas -/

theorem foldl_eq_sumFrom {N : Type} [Add N] [Mul N] [NatCast N]
    (items : List (CartItemOf N)) (a : N) :
    items.foldl (fun s i => s + i.price * (i.qty : N)) a = sumFrom a items := by
  induction items generalizing a with
  | nil => rfl
  | cons i rest ih => simp only [List.foldl_cons, sumFrom, ih]

/-- The reducer of the handlers computes the sum of `price * qty` over the lines, in any
arithmetic. -/
theorem reduceTotal_eq_lineSum {N : Type} [Zero N] [Add N] [Mul N] [NatCast N]
    (items : List (CartItemOf N)) : reduceTotal items = lineSum items := by
  simp only [reduceTotal, lineSum, foldl_eq_sumFrom]

theorem sumFrom_eq_add_sum (items : List CartItem) (a : Rat) :
    sumFrom a items = a + (items.map (fun i => i.price * (i.qty : Rat))).sum := by
  induction items generalizing a with
  | nil => simp [sumFrom]
  | cons i rest ih => simp [sumFrom, ih, add_assoc]

/-- In exact arithmetic the order of the additions does not matter: the sum taken line by
line is the sum of the list of the products `price * qty`. -/
theorem lineSum_eq_sum (items : List CartItem) :
    lineSum items = (items.map (fun i => i.price * (i.qty : Rat))).sum := by
  simp [lineSum, sumFrom_eq_add_sum]

theorem addToCart_totalPrice {N : Type} [Zero N] [Add N] [Mul N] [NatCast N]
    (cart : Option (CartOf N)) (restaurantId itemId name : String) (price : N) :
    (addToCart cart restaurantId itemId name price).totalPrice =
      lineSum (addToCart cart restaurantId itemId name price).items := by
  simp [addToCart, reduceTotal_eq_lineSum]

theorem addToCart_restaurantId {N : Type} [Zero N] [Add N] [Mul N] [NatCast N]
    (cart : Option (CartOf N)) (restaurantId itemId name : String) (price : N) :
    (addToCart cart restaurantId itemId name price).restaurantId = restaurantId := by
  unfold addToCart
  simp only []
  split <;> rfl

theorem cartAdd_of_valid {N : Type} [Zero N] [Add N] [Mul N] [NatCast N]
    (cart : Option (CartOf N)) (req : AddRequestOf N) (h : validAdd req = true) :
    ∃ restaurantId itemId name price,
      req = { restaurantId := some restaurantId, itemId := some itemId, name := some name,
              price := some price } ∧
      truthyStr restaurantId = true ∧ truthyStr itemId = true ∧ truthyStr name = true ∧
      cartAdd cart req = some (addToCart cart restaurantId itemId name price) := by
  obtain ⟨r, i, n, p⟩ := req
  cases r <;> cases i <;> cases n <;> cases p <;> simp [validAdd, truthy] at h
  rename_i r i n p
  exact ⟨r, i, n, p, rfl, h.1.1, h.1.2, h.2, by simp [cartAdd, h.1.1, h.1.2, h.2]⟩

theorem cartAdd_totalPrice {N : Type} [Zero N] [Add N] [Mul N] [NatCast N]
    (cart : Option (CartOf N)) (req : AddRequestOf N) (h : validAdd req = true) :
    ∃ c, cartAdd cart req = some c ∧ c.totalPrice = lineSum c.items ∧
      some c.restaurantId = req.restaurantId := by
  obtain ⟨r, i, n, p, hreq, _, _, _, hadd⟩ := cartAdd_of_valid cart req h
  exact ⟨_, hadd, addToCart_totalPrice _ _ _ _ _, by simp [hreq, addToCart_restaurantId]⟩

theorem cartRemove_totalPrice {N : Type} [Zero N] [Add N] [Mul N] [NatCast N]
    (cart : Option (CartOf N)) (itemId : Option String) (c : CartOf N)
    (h : cartRemove cart itemId = some c) : c.totalPrice = lineSum c.items := by
  cases cart with
  | none => simp [cartRemove] at h
  | some c0 =>
    simp only [cartRemove] at h
    split at h
    · simp at h
    · simp only [Option.some.injEq] at h
      subst h
      simp [reduceTotal_eq_lineSum]

theorem runAdds_append {N : Type} [Zero N] [Add N] [Mul N] [NatCast N]
    (cart : Option (CartOf N)) (xs ys : List (AddRequestOf N)) :
    runAdds cart (xs ++ ys) = runAdds (runAdds cart xs) ys := by
  simp [runAdds, List.foldl_append]

theorem incrementFirst_spec (itemId : String) (items : List CartItem)
    (h : ∃ l ∈ items, l.itemId = itemId) :
    ∃ pre l post, items = pre ++ l :: post ∧ l.itemId = itemId ∧
      (∀ x ∈ pre, x.itemId ≠ itemId) ∧
      incrementFirst itemId items = pre ++ { l with qty := l.qty + 1 } :: post := by
  induction items with
  | nil => simp at h
  | cons i rest ih =>
    by_cases hi : i.itemId = itemId
    · exact ⟨[], i, rest, rfl, hi, by simp, by simp [incrementFirst, hi]⟩
    · have hrest : ∃ l ∈ rest, l.itemId = itemId := by
        obtain ⟨l, hl, hl2⟩ := h
        rcases List.mem_cons.mp hl with rfl | hl
        · exact absurd hl2 hi
        · exact ⟨l, hl, hl2⟩
      obtain ⟨pre, l, post, h1, h2, h3, h4⟩ := ih hrest
      refine ⟨i :: pre, l, post, by simp [h1], h2, ?_, by simp [incrementFirst, hi, h4]⟩
      intro x hx
      rcases List.mem_cons.mp hx with rfl | hx
      · exact hi
      · exact h3 x hx

theorem addOrIncrement_of_mem (items : List CartItem) (itemId name : String) (price : Rat)
    (h : ∃ l ∈ items, l.itemId = itemId) :
    addOrIncrement items itemId name price = incrementFirst itemId items := by
  unfold addOrIncrement
  split
  · rfl
  · rename_i hnone
    obtain ⟨l, hl, hl2⟩ := h
    have := List.find?_eq_none.mp hnone l hl
    simp [hl2] at this

theorem addOrIncrement_of_not_mem (items : List CartItem) (itemId name : String) (price : Rat)
    (h : ∀ l ∈ items, l.itemId ≠ itemId) :
    addOrIncrement items itemId name price =
      items ++ [{ itemId := itemId, name := name, price := price, qty := 1 }] := by
  unfold addOrIncrement
  split
  · rename_i x hsome
    have hmem := List.mem_of_find?_eq_some hsome
    have hp := List.find?_some hsome
    simp only [decide_eq_true_eq] at hp
    exact absurd hp (h x hmem)
  · rfl

theorem cartAdd_restaurantId_truthy (cart : Option Cart) (req : AddRequest)
    (hcart : ∀ c, cart = some c → truthyStr c.restaurantId = true) (c2 : Cart)
    (h : cartAdd cart req = some c2) : truthyStr c2.restaurantId = true := by
  by_cases hv : validAdd req = true
  · obtain ⟨r, i, n, p, _, hr, _, _, hadd⟩ := cartAdd_of_valid cart req hv
    rw [hadd] at h
    simp only [Option.some.injEq] at h
    rw [← h, addToCart_restaurantId]
    exact hr
  · have hsame : cartAdd cart req = cart := by
      obtain ⟨r, i, n, p⟩ := req
      cases r <;> cases i <;> cases n <;> cases p <;> simp [cartAdd]
      rename_i r i n p
      intro h1 h2 h3
      simp [validAdd, truthy, h1, h2, h3] at hv
    rw [hsame] at h
    exact hcart c2 h

theorem cartRemove_restaurantId (cart : Option Cart) (itemId : Option String) (c2 : Cart)
    (h : cartRemove cart itemId = some c2) :
    ∃ c, cart = some c ∧ c2.restaurantId = c.restaurantId := by
  cases cart with
  | none => simp [cartRemove] at h
  | some c =>
    simp only [cartRemove] at h
    split at h
    · simp at h
    · simp only [Option.some.injEq] at h
      exact ⟨c, rfl, by rw [← h]⟩

/-- Every cart that the cart routes build from an empty session is bound to a truthy
`restaurantId`. -/
theorem runCartOps_restaurantId_truthy (ops : List CartOp) (cart : Option Cart)
    (hcart : ∀ c, cart = some c → truthyStr c.restaurantId = true) (c2 : Cart)
    (h : runCartOps cart ops = some c2) : truthyStr c2.restaurantId = true := by
  induction ops generalizing cart with
  | nil => exact hcart c2 (by simpa [runCartOps] using h)
  | cons op rest ih =>
    refine ih (applyCartOp cart op) ?_ (by simpa [runCartOps] using h)
    intro c hc
    cases op with
    | add req => exact cartAdd_restaurantId_truthy cart req hcart c hc
    | remove itemId =>
      obtain ⟨c0, hc0, hrid⟩ := cartRemove_restaurantId cart itemId c hc
      rw [hrid]
      exact hcart c0 hc0

/-! ## Properties of the cart store -/

/-- C1: in any arithmetic of numbers (a zero, an addition, a multiplication and the
conversion of quantities), starting from a session with no cart, after each call of a
sequence of valid `POST /cart/add` requests that all carry the same `restaurantId` the
session holds a cart whose `totalPrice` is the sum of `price * qty` over its lines, taken
line by line from zero; and whenever `POST /cart/remove` leaves a cart in the session, that
cart's `totalPrice` is the sum of `price * qty` over its lines. -/
theorem cart_totalPrice_eq_lineSum {N : Type} [Zero N] [Add N] [Mul N] [NatCast N] :
    (∀ (r : String) (reqs : List (AddRequestOf N)),
        (∀ q ∈ reqs, validAdd q = true ∧ q.restaurantId = some r) →
        ∀ k, 0 < k → k ≤ reqs.length →
          ∃ c, runAdds none (reqs.take k) = some c ∧ c.totalPrice = lineSum c.items) ∧
    (∀ (cart : Option (CartOf N)) (itemId : Option String) (c : CartOf N),
        cartRemove cart itemId = some c → c.totalPrice = lineSum c.items) := by
  refine ⟨?_, cartRemove_totalPrice⟩
  intro r reqs hreqs k hk hlen
  obtain ⟨j, rfl⟩ : ∃ j, k = j + 1 := ⟨k - 1, by omega⟩
  have hj : j < reqs.length := by omega
  have htake : reqs.take (j + 1) = reqs.take j ++ [reqs.get ⟨j, hj⟩] := by
    rw [List.take_succ, List.getElem?_eq_getElem hj]
    rfl
  rw [htake, runAdds_append]
  have hv := (hreqs (reqs.get ⟨j, hj⟩) (List.get_mem reqs j hj)).1
  obtain ⟨c, hc, htot, _⟩ := cartAdd_totalPrice (runAdds none (reqs.take j)) _ hv
  exact ⟨c, by simpa [runAdds] using hc, htot⟩

/-- Witness for C1, with exact prices: two adds of the same item, and a remove that leaves
one line. -/
theorem cart_totalPrice_eq_lineSum_witness :
    (∃ c : Cart, runAdds none ([pizzaReq, pizzaReq].take 2) = some c ∧
        c.totalPrice = lineSum c.items) ∧
    pizzaCart.totalPrice = lineSum pizzaCart.items :=
  ⟨cart_totalPrice_eq_lineSum.1 restA [pizzaReq, pizzaReq] (by decide) 2 (by decide)
      (by decide),
   cart_totalPrice_eq_lineSum.2 (some twoLineCart) (some "i2") pizzaCart (by decide!)⟩

/-- C7: when the session cart is bound to a restaurant `A` and holds items, a valid
`POST /cart/add` for a different restaurant `B` leaves a cart bound to `B` whose only line is
the new item with `qty` 1 and whose `totalPrice` is that item's price. -/
theorem cartAdd_other_restaurant_resets (c : Cart) (req : AddRequest) (B itemId name : String)
    (price : Rat)
    (hreq : req = { restaurantId := some B, itemId := some itemId, name := some name,
                    price := some price })
    (hvalid : validAdd req = true)
    (hA : truthyStr c.restaurantId = true)
    (_hitems : c.items ≠ [])
    (hne : B ≠ c.restaurantId) :
    cartAdd (some c) req =
      some { restaurantId := B,
             items := [{ itemId := itemId, name := name, price := price, qty := 1 }],
             totalPrice := price } := by
  subst hreq
  simp only [validAdd, truthy, Bool.and_eq_true, Option.isSome_some, and_true] at hvalid
  have hne2 : (c.restaurantId != B) = true := by
    simp only [bne_iff_ne, ne_eq]
    exact fun h => hne h.symm
  simp [cartAdd, hvalid.1.1, hvalid.1.2, hvalid.2, addToCart, hA, hne2, freshCart,
    addOrIncrement, reduceTotal]

/-- Witness for C7: a cart of restaurant `r1` receives an item of restaurant `r2`. -/
theorem cartAdd_other_restaurant_resets_witness :
    cartAdd (some twoLineCart)
        { restaurantId := some restB, itemId := some "i9", name := some "Soup",
          price := some 4 } =
      some { restaurantId := restB,
             items := [{ itemId := "i9", name := "Soup", price := 4, qty := 1 }],
             totalPrice := 4 } :=
  cartAdd_other_restaurant_resets twoLineCart _ restB "i9" "Soup" 4 rfl (by decide) (by decide)
    (by decide) (by decide)

/-- C8: a valid `POST /cart/add` for the restaurant the cart is bound to keeps the cart bound
to it; when some line has the item's `itemId`, the first such line gets `qty + 1`, the number
of lines is unchanged and all other lines are untouched; when no line has it, one new line
with `qty` 1 is appended at the end and the lines before it are untouched. -/
theorem cartAdd_same_restaurant (c : Cart) (req : AddRequest) (R itemId name : String)
    (price : Rat)
    (hreq : req = { restaurantId := some R, itemId := some itemId, name := some name,
                    price := some price })
    (hvalid : validAdd req = true)
    (hR : c.restaurantId = R) :
    ∃ c2, cartAdd (some c) req = some c2 ∧ c2.restaurantId = R ∧
      ((∃ l ∈ c.items, l.itemId = itemId) →
        c2.items.length = c.items.length ∧
        ∃ pre l post, c.items = pre ++ l :: post ∧ l.itemId = itemId ∧
          (∀ x ∈ pre, x.itemId ≠ itemId) ∧
          c2.items = pre ++ { l with qty := l.qty + 1 } :: post) ∧
      ((∀ l ∈ c.items, l.itemId ≠ itemId) →
        c2.items = c.items ++ [{ itemId := itemId, name := name, price := price, qty := 1 }]) := by
  subst hreq
  simp only [validAdd, truthy, Bool.and_eq_true, Option.isSome_some, and_true] at hvalid
  have hc1 : cartAdd (some c)
      { restaurantId := some R, itemId := some itemId, name := some name,
        price := some price } =
      some { restaurantId := R, items := addOrIncrement c.items itemId name price,
             totalPrice := reduceTotal (addOrIncrement c.items itemId name price) } := by
    simp [cartAdd, hvalid.1.1, hvalid.1.2, hvalid.2, addToCart, hR]
  refine ⟨_, hc1, rfl, ?_, ?_⟩
  · intro hex
    rw [addOrIncrement_of_mem _ _ _ _ hex]
    obtain ⟨pre, l, post, h1, h2, h3, h4⟩ := incrementFirst_spec itemId c.items hex
    refine ⟨?_, pre, l, post, h1, h2, h3, h4⟩
    simp only []
    rw [h4, h1]
    simp
  · intro hall
    rw [addOrIncrement_of_not_mem _ _ _ _ hall]

/-- Witness for C8: the second line of a two-line cart is incremented. -/
theorem cartAdd_same_restaurant_witness :
    ∃ c2, cartAdd (some twoLineCart)
        { restaurantId := some restA, itemId := some "i2", name := some "Cola",
          price := some 3 } = some c2 ∧ c2.restaurantId = restA ∧
      ((∃ l ∈ twoLineCart.items, l.itemId = "i2") →
        c2.items.length = twoLineCart.items.length ∧
        ∃ pre l post, twoLineCart.items = pre ++ l :: post ∧ l.itemId = "i2" ∧
          (∀ x ∈ pre, x.itemId ≠ "i2") ∧
          c2.items = pre ++ { l with qty := l.qty + 1 } :: post) ∧
      ((∀ l ∈ twoLineCart.items, l.itemId ≠ "i2") →
        c2.items = twoLineCart.items ++
          [{ itemId := "i2", name := "Cola", price := 3, qty := 1 }]) :=
  cartAdd_same_restaurant twoLineCart _ restA "i2" "Cola" 3 rfl (by decide) (by decide)

/-- C9: removing the `itemId` of the only line of a one-line cart leaves the session without
a cart, `GET /cart` then shows the empty sentinel
`{ items: [], totalPrice: 0, restaurantId: null }`, and `GET /cart` shows that sentinel
whenever the session has no cart. -/
theorem cartRemove_last_line (c : Cart) (l : CartItem) (h : c.items = [l]) :
    cartRemove (some c) (some l.itemId) = none ∧
    cartView (cartRemove (some c) (some l.itemId)) =
      { items := [], totalPrice := 0, restaurantId := none } ∧
    cartView none = { items := [], totalPrice := 0, restaurantId := none } := by
  have h1 : cartRemove (some c) (some l.itemId) = none := by
    simp [cartRemove, h]
  exact ⟨h1, by rw [h1]; rfl, rfl⟩

/-- Witness for C9: the one-line pizza cart. -/
theorem cartRemove_last_line_witness :
    cartRemove (some pizzaCart) (some pizzaLine.itemId) = none ∧
    cartView (cartRemove (some pizzaCart) (some pizzaLine.itemId)) =
      { items := [], totalPrice := 0, restaurantId := none } ∧
    cartView none = { items := [], totalPrice := 0, restaurantId := none } :=
  cartRemove_last_line pizzaCart pizzaLine rfl

/-! ## Order store lemmas -/

theorem castObjectId_eq_some (s x : String) (h : castObjectId s = some x) :
    matchesObjectId s = true ∧ x = String.mk (s.toList.map Char.toLower) := by
  unfold castObjectId at h
  split at h
  · simp only [Option.some.injEq] at h
    exact ⟨by assumption, h.symm⟩
  · simp at h

theorem truthyStr_of_castObjectId (s x : String) (h : castObjectId s = some x) :
    truthyStr s = true := by
  by_cases hs : s = ""
  · subst hs
    have : castObjectId "" = none := by decide
    rw [this] at h
    cases h
  · simp [truthyStr, hs]

theorem sameObjectId_iff (a b : String) :
    sameObjectId a b = true ↔ ∃ x, castObjectId a = some x ∧ castObjectId b = some x := by
  unfold sameObjectId
  cases ha : castObjectId a <;> cases hb : castObjectId b <;> simp
  exact eq_comm

theorem sameObjectId_congr {a b : String} (h : sameObjectId a b = true) (c : String) :
    sameObjectId c a = sameObjectId c b := by
  obtain ⟨x, ha, hb⟩ := (sameObjectId_iff a b).mp h
  unfold sameObjectId
  rw [ha, hb]

theorem updateFirst_congr {a b : String} (h : sameObjectId a b = true) (f : Order → Order)
    (store : List Order) : updateFirst a f store = updateFirst b f store := by
  induction store with
  | nil => rfl
  | cons x rest ih => simp only [updateFirst, sameObjectId_congr h x.id, ih]

theorem findById_cast_error (store : List Order) (id : String) (h : castObjectId id = none) :
    findById store id = .error "CastError" := by
  simp [findById, h]

theorem findById_some {store : List Order} {id : String} {o : Order}
    (h : findById store id = .ok (some o)) : sameObjectId o.id id = true ∧ o ∈ store := by
  unfold findById at h
  split at h
  · simp at h
  · simp only [Outcome.ok.injEq] at h
    exact ⟨by simpa using List.find?_some h, List.mem_of_find?_eq_some h⟩

theorem findById_none_of_forall (store : List Order) (id x : String)
    (hcast : castObjectId id = some x) (h : ∀ o ∈ store, sameObjectId o.id id = false) :
    findById store id = .ok none := by
  simp only [findById, hcast, Outcome.ok.injEq, List.find?_eq_none]
  intro o ho
  simp [h o ho]

theorem findById_updateFirst (store : List Order) (id : String) (f : Order → Order) (o : Order)
    (h : findById store id = .ok (some o)) (hid : (f o).id = o.id) :
    findById (updateFirst id f store) id = .ok (some (f o)) := by
  have hsame := (findById_some h).1
  unfold findById at h ⊢
  cases hcast : castObjectId id with
  | none => simp [hcast] at h
  | some x =>
    simp only [hcast, Outcome.ok.injEq] at h ⊢
    clear hcast
    induction store with
    | nil => simp at h
    | cons y rest ih =>
      by_cases hy : sameObjectId y.id id = true
      · have hyo : y = o := by simpa [List.find?_cons, hy] using h
        subst hyo
        simp [updateFirst, hy, List.find?_cons, hid]
      · have hrest : List.find? (fun o => sameObjectId o.id id) rest = some o := by
          simpa [List.find?_cons, hy] using h
        simpa [updateFirst, hy, List.find?_cons] using ih hrest

theorem append_singleton_ne_self (store : List Order) (o : Order) : store ++ [o] ≠ store := by
  intro h
  have := congrArg List.length h
  simp at this

/-- What a document that `applyStatus` leaves valid looks like: the id is kept, the status
is the new one and one entry for it is appended to the history. -/
theorem applyStatus_some (o o2 : Order) (status : String) (actorId : Option String)
    (now : Nat) (h : applyStatus o status actorId now = some o2) :
    o2.id = o.id ∧ o2.status = status ∧
      o2.trackingHistory = o.trackingHistory ++ [{ status := status, timestamp := now }] := by
  unfold applyStatus at h
  simp only [] at h
  split at h
  · split at h
    · split at h
      · simp only [Option.map_some', Option.some.injEq] at h
        subst h
        exact ⟨rfl, rfl, rfl⟩
      · simp at h
    · simp only [Option.map_some', Option.some.injEq] at h
      subst h
      exact ⟨rfl, rfl, rfl⟩
  · simp only [Option.map_some', Option.some.injEq] at h
    subst h
    exact ⟨rfl, rfl, rfl⟩

/-- An order that has a rider keeps it, and `applyStatus` leaves the document valid. -/
theorem applyStatus_rider_of_set (o : Order) (status : String) (actorId : Option String)
    (now : Nat) (r : String) (h : o.rider = some r) :
    ∃ o2, applyStatus o status actorId now = some o2 ∧ o2.rider = some r := by
  unfold applyStatus
  simp only []
  split
  · simp [h]
  · simp [h]

/-- An order without rider gets the `ObjectId` of a well-formed actor id on a rider-track
status. -/
theorem applyStatus_rider_of_unset (o : Order) (status r rid : String) (now : Nat)
    (h : o.rider = none) (hr : castObjectId r = some rid)
    (hs : status ∈ riderTrackStatuses) :
    ∃ o2, applyStatus o status (some r) now = some o2 ∧ o2.rider = some rid := by
  have ht := truthyStr_of_castObjectId r rid hr
  simp [applyStatus, truthy, ht, hs, h, hr]

/-- With no actor, or an actor id that casts, `applyStatus` leaves the document valid. -/
theorem applyStatus_isSome (o : Order) (status : String) (actorId : Option String)
    (now : Nat) (h : ∀ r, actorId = some r → ∃ rid, castObjectId r = some rid) :
    ∃ o2, applyStatus o status actorId now = some o2 := by
  unfold applyStatus
  simp only []
  split
  · split
    · cases actorId with
      | none => simp [truthy] at *
      | some r =>
        obtain ⟨rid, hrid⟩ := h r rfl
        simp [hrid]
    · simp
  · simp

theorem saveExisting_ok (store : List Order) (doc : Order)
    (hv : doc.status ∈ schemaStatusEnum) :
    saveExisting true store doc = .ok (updateFirst doc.id (fun _ => doc) store) := by
  simp [saveExisting, hv]

theorem saveExisting_error_message (dbOk : Bool) (store : List Order) (doc : Order)
    (msg : String) (h : saveExisting dbOk store doc = .error msg) :
    msg = "ValidationError" ∨ msg = "PersistenceFailure" := by
  unfold saveExisting at h
  split at h
  · simp only [Outcome.error.injEq] at h
    exact Or.inl h.symm
  · split at h
    · simp only [Outcome.error.injEq] at h
      exact Or.inr h.symm
    · simp at h

/-- The outcome of `updateOrderStatus` for a status outside `allowed`. -/
theorem updateOrderStatus_not_allowed (dbOk : Bool) (now : Nat) (store : List Order)
    (orderId status : String) (actorId : Option String) (hs : status ∉ allowedStatuses) :
    updateOrderStatus dbOk now store orderId status actorId =
      (.error "Invalid status", store) := by
  simp [updateOrderStatus, hs]

/-- The outcome of `updateOrderStatus` when the id does not cast to an `ObjectId`. -/
theorem updateOrderStatus_cast_error (dbOk : Bool) (now : Nat) (store : List Order)
    (orderId status : String) (actorId : Option String) (hs : status ∈ allowedStatuses)
    (hcast : castObjectId orderId = none) :
    updateOrderStatus dbOk now store orderId status actorId = (.error "CastError", store) := by
  simp [updateOrderStatus, hs, findById_cast_error store orderId hcast]

/-- The outcome of `updateOrderStatus` when no order has the id. -/
theorem updateOrderStatus_not_found (dbOk : Bool) (now : Nat) (store : List Order)
    (orderId status : String) (actorId : Option String) (hs : status ∈ allowedStatuses)
    (hfind : findById store orderId = .ok none) :
    updateOrderStatus dbOk now store orderId status actorId =
      (.error "Order not found", store) := by
  simp [updateOrderStatus, hs, hfind]

/-- The outcome of `updateOrderStatus` once the status is allowed and the order found. -/
theorem updateOrderStatus_found (dbOk : Bool) (now : Nat) (store : List Order)
    (orderId status : String) (actorId : Option String) (o : Order)
    (hs : status ∈ allowedStatuses) (hfind : findById store orderId = .ok (some o)) :
    updateOrderStatus dbOk now store orderId status actorId =
      match applyStatus o status actorId now with
      | none => (.error "ValidationError", store)
      | some o2 =>
        match saveExisting dbOk store o2 with
        | .ok store2 => (.ok o2, store2)
        | .error e => (.error e, store) := by
  simp [updateOrderStatus, hs, hfind]

theorem saveExisting_ok_eq (dbOk : Bool) (store store2 : List Order) (doc : Order)
    (h : saveExisting dbOk store doc = .ok store2) :
    store2 = updateFirst doc.id (fun _ => doc) store := by
  unfold saveExisting at h
  split at h
  · simp at h
  · split at h
    · simp at h
    · simp only [Outcome.ok.injEq] at h
      exact h.symm

/-- A successful `updateOrderStatus` stores the changed document under its id. -/
theorem updateOrderStatus_success (now : Nat) (store : List Order)
    (orderId status : String) (actorId : Option String) (o o2 : Order)
    (hs : status ∈ allowedStatuses)
    (hv : status ∈ schemaStatusEnum)
    (hfind : findById store orderId = .ok (some o))
    (happly : applyStatus o status actorId now = some o2) :
    updateOrderStatus true now store orderId status actorId =
        (.ok o2, updateFirst orderId (fun _ => o2) store) ∧
      findById (updateFirst orderId (fun _ => o2) store) orderId = .ok (some o2) := by
  obtain ⟨hid, hstatus, _⟩ := applyStatus_some o o2 status actorId now happly
  have hsame : sameObjectId o2.id orderId = true := by
    rw [hid]
    exact (findById_some hfind).1
  have hval : o2.status ∈ schemaStatusEnum := by rw [hstatus]; exact hv
  refine ⟨?_, findById_updateFirst store orderId (fun _ => o2) o hfind hid⟩
  rw [updateOrderStatus_found true now store orderId status actorId o hs hfind, happly]
  simp only []
  rw [saveExisting_ok _ _ hval, updateFirst_congr hsame]

/-- A failing `updateOrderStatus` leaves the order collection as it was. -/
theorem updateOrderStatus_error_store (dbOk : Bool) (now : Nat) (store : List Order)
    (orderId status : String) (actorId : Option String) (msg : String)
    (h : (updateOrderStatus dbOk now store orderId status actorId).1 = .error msg) :
    (updateOrderStatus dbOk now store orderId status actorId).2 = store := by
  by_cases hs : status ∈ allowedStatuses
  · cases hfind : findById store orderId with
    | error e => simp [updateOrderStatus, hs, hfind]
    | ok found =>
      cases found with
      | none => rw [updateOrderStatus_not_found _ _ _ _ _ _ hs hfind]
      | some o =>
        rw [updateOrderStatus_found _ _ _ _ _ _ o hs hfind] at h ⊢
        cases happly : applyStatus o status actorId now with
        | none => simp
        | some o2 =>
          simp only [happly] at h ⊢
          cases hsave : saveExisting dbOk store o2 with
          | ok store2 => simp [hsave] at h
          | error e => simp
  · rw [updateOrderStatus_not_allowed _ _ _ _ _ _ hs]

/-- The messages with which `updateOrderStatus` rejects. -/
theorem updateOrderStatus_error_message (dbOk : Bool) (now : Nat) (store : List Order)
    (orderId status : String) (actorId : Option String) (msg : String)
    (h : (updateOrderStatus dbOk now store orderId status actorId).1 = .error msg) :
    msg ∈ ["Invalid status", "CastError", "Order not found", "ValidationError",
      "PersistenceFailure"] := by
  by_cases hs : status ∈ allowedStatuses
  · cases hfind : findById store orderId with
    | error e =>
      have he : e = "CastError" := by
        unfold findById at hfind
        split at hfind
        · simp only [Outcome.error.injEq] at hfind
          exact hfind.symm
        · simp at hfind
      simp [updateOrderStatus, hs, hfind, he] at h
      simp [← h]
    | ok found =>
      cases found with
      | none =>
        rw [updateOrderStatus_not_found _ _ _ _ _ _ hs hfind] at h
        simp only [Outcome.error.injEq] at h
        simp [← h]
      | some o =>
        rw [updateOrderStatus_found _ _ _ _ _ _ o hs hfind] at h
        cases happly : applyStatus o status actorId now with
        | none =>
          simp only [happly, Outcome.error.injEq] at h
          simp [← h]
        | some o2 =>
          simp only [happly] at h
          cases hsave : saveExisting dbOk store o2 with
          | ok store2 => simp [hsave] at h
          | error e =>
            simp only [hsave, Outcome.error.injEq] at h
            subst h
            rcases saveExisting_error_message _ _ _ _ hsave with rfl | rfl <;> simp
  · rw [updateOrderStatus_not_allowed _ _ _ _ _ _ hs] at h
    simp only [Outcome.error.injEq] at h
    simp [← h]

/-- When `updateOrderStatus` resolves, it resolves to the changed document, which is then
the stored one. -/
theorem updateOrderStatus_ok_eq (dbOk : Bool) (now : Nat) (store : List Order)
    (orderId status : String) (actorId : Option String) (o o2 : Order)
    (hfind : findById store orderId = .ok (some o))
    (h : (updateOrderStatus dbOk now store orderId status actorId).1 = .ok o2) :
    applyStatus o status actorId now = some o2 ∧
      (updateOrderStatus dbOk now store orderId status actorId).2 =
        updateFirst orderId (fun _ => o2) store := by
  by_cases hs : status ∈ allowedStatuses
  · rw [updateOrderStatus_found _ _ _ _ _ _ o hs hfind] at h ⊢
    cases happly : applyStatus o status actorId now with
    | none => simp [happly] at h
    | some o3 =>
      simp only [happly] at h ⊢
      have hid := (applyStatus_some o o3 status actorId now happly).1
      have hsame : sameObjectId o3.id orderId = true := by
        rw [hid]
        exact (findById_some hfind).1
      cases hsave : saveExisting dbOk store o3 with
      | error e => simp [hsave] at h
      | ok store2 =>
        simp only [hsave, Outcome.ok.injEq] at h ⊢
        subst h
        exact ⟨rfl, by rw [saveExisting_ok_eq _ _ _ _ hsave, updateFirst_congr hsame]⟩
  · rw [updateOrderStatus_not_allowed _ _ _ _ _ _ hs] at h
    simp at h

/-- An order made by `createOrder` starts with the single history entry `Pending`. -/
theorem createOrder_history (dbOk : Bool) (now : Nat) (newId : String) (menu : List MenuItem)
    (store : List Order) (customerId restaurantId : String) (items : List ItemRequest)
    (deliveryAddress : Option String) (o : Order)
    (h : (createOrder dbOk now newId menu store customerId restaurantId items
      deliveryAddress).1 = .ok o) :
    o.status = "Pending" ∧ o.trackingHistory = [{ status := "Pending", timestamp := now }] := by
  unfold createOrder at h
  split at h
  · simp at h
  · simp only [] at h
    split at h
    · simp only [Outcome.ok.injEq] at h
      rw [← h]
      simp only [castDocument]
      split
      · exact ⟨rfl, rfl⟩
      · exact ⟨rfl, rfl⟩
    · simp at h

/-- The order built by checkout copies the cart's lines and total, is `Pending`, and has an
empty `trackingHistory`. -/
theorem checkoutOrder_fields (newId userId : String) (c : Cart) :
    (checkoutOrder newId userId c).status = "Pending" ∧
    (checkoutOrder newId userId c).totalPrice = c.totalPrice ∧
    (checkoutOrder newId userId c).items.map (fun i => (i.name, i.price, i.qty)) =
      c.items.map (fun i => (i.name, i.price, i.qty)) ∧
    (checkoutOrder newId userId c).trackingHistory = [] := by
  refine ⟨rfl, rfl, ?_, rfl⟩
  simp [checkoutOrder, List.map_map, Function.comp_def]

/-- For every non-empty cart, a checkout whose document validates and whose write succeeds
clears the session cart and appends the order built from the cart to the collection. -/
theorem cartCheckout_success (newId userId : String) (c : Cart) (store : List Order)
    (h : c.items ≠ []) (hv : validates (checkoutOrder newId userId c) = true) :
    cartCheckout true newId userId (some c) store =
      { cart := none
        store := store ++
          [(castDocument (checkoutOrder newId userId c)).getD (checkoutOrder newId userId c)]
        saveCalls := [checkoutOrder newId userId c]
        response := .redirect "/orders" } := by
  have hlen : c.items.length ≠ 0 := by simpa using h
  simp [cartCheckout, hlen, saveNew, hv]

/-! ## Properties of checkout and of the order lifecycle -/

/-- C2: `POST /cart/checkout` with persistence succeeding, for the cart with the single line
Pizza, price 10, qty 2, `totalPrice` 20: the session cart is cleared and the stored order has
`status` `"Pending"`, `totalPrice` 20 and the cart's line, but its `trackingHistory` is
empty instead of holding the single entry `{ status: "Pending" }`. -/
theorem cartCheckout_pizza_history_empty :
    cartCheckout true orderId1 custC (some pizzaCart) [] =
      { cart := none, store := [pizzaOrder], saveCalls := [pizzaOrder],
        response := .redirect "/orders" } ∧
    pizzaOrder.status = "Pending" ∧
    pizzaOrder.totalPrice = 20 ∧
    pizzaOrder.items = [{ menuItem := none, name := "Pizza", price := 10, qty := 2 }] ∧
    (cartCheckout true orderId1 custC (some pizzaCart) []).store.map
        (fun o => o.trackingHistory.map (fun e => e.status)) = [[]] ∧
    pizzaOrder.trackingHistory.map (fun e => e.status) ≠ ["Pending"] := by
  decide!

/-- C3: `POST /cart/checkout` is all-or-nothing. An order is appended to the collection
exactly when the session had a cart and has none afterwards; an absent cart or a cart with
zero items calls no `save()` and changes neither the cart nor the collection; a failing
write leaves the cart and the collection as they were; and in every case either one order
was appended and the cart is cleared, or nothing changed. -/
theorem cartCheckout_all_or_nothing (dbOk : Bool) (newId userId : String)
    (cart : Option Cart) (store : List Order) :
    ((∃ o, (cartCheckout dbOk newId userId cart store).store = store ++ [o]) ↔
      (cart ≠ none ∧ (cartCheckout dbOk newId userId cart store).cart = none)) ∧
    ((cart = none ∨ ∃ c, cart = some c ∧ c.items = []) →
      (cartCheckout dbOk newId userId cart store).saveCalls = [] ∧
      (cartCheckout dbOk newId userId cart store).cart = cart ∧
      (cartCheckout dbOk newId userId cart store).store = store) ∧
    (dbOk = false →
      (cartCheckout dbOk newId userId cart store).cart = cart ∧
      (cartCheckout dbOk newId userId cart store).store = store) ∧
    (((∃ o, (cartCheckout dbOk newId userId cart store).store = store ++ [o]) ∧
        (cartCheckout dbOk newId userId cart store).cart = none) ∨
      ((cartCheckout dbOk newId userId cart store).store = store ∧
        (cartCheckout dbOk newId userId cart store).cart = cart)) := by
  cases cart with
  | none =>
    have hne := append_singleton_ne_self store
    simp [cartCheckout, hne]
  | some c =>
    have hne := append_singleton_ne_self store
    by_cases hitems : c.items = []
    · simp [cartCheckout, hitems, hne]
    · have hlen : c.items.length ≠ 0 := by simpa using hitems
      by_cases hv : validates (checkoutOrder newId userId c) = true
      · cases dbOk with
        | true => simp [cartCheckout, hlen, hitems, saveNew, hv]
        | false => simp [cartCheckout, hlen, hitems, saveNew, hv, hne]
      · simp [cartCheckout, hlen, hitems, saveNew, hv, hne]

/-- Witness for C3: a failing write on the pizza cart. -/
theorem cartCheckout_all_or_nothing_witness :
    (cartCheckout false orderId1 custC (some pizzaCart) []).cart = some pizzaCart ∧
    (cartCheckout false orderId1 custC (some pizzaCart) []).store = [] :=
  (cartCheckout_all_or_nothing false orderId1 custC (some pizzaCart) []).2.2.1 rfl

/-- C4: for an order without rider and a rider id `r` (a string that casts to an `ObjectId`),
`updateOrderStatus(orderId, "PickedUp", r)` with the write succeeding resolves to the stored
order whose `rider` is the `ObjectId` of `r`, with `status = "PickedUp"` and one `PickedUp`
entry appended to `trackingHistory`; for an order whose rider is `r`, a call with a
rider-track status and another actor leaves the rider `r`, both in the document it resolves
to and in the stored order. -/
theorem updateOrderStatus_rider_assignment :
    (∀ (now : Nat) (store : List Order) (orderId : String) (o : Order) (r rid : String),
      findById store orderId = .ok (some o) → o.rider = none → castObjectId r = some rid →
      ∃ o2 store2,
        updateOrderStatus true now store orderId "PickedUp" (some r) = (.ok o2, store2) ∧
        findById store2 orderId = .ok (some o2) ∧
        o2.rider = some rid ∧ o2.status = "PickedUp" ∧
        o2.trackingHistory = o.trackingHistory ++ [{ status := "PickedUp", timestamp := now }]) ∧
    (∀ (dbOk : Bool) (now : Nat) (store : List Order) (orderId : String) (o : Order)
        (r r2 status : String),
      findById store orderId = .ok (some o) → o.rider = some r → r2 ≠ r →
      status ∈ riderTrackStatuses →
      (∀ o2, (updateOrderStatus dbOk now store orderId status (some r2)).1 = .ok o2 →
        o2.rider = some r) ∧
      ∃ o3, findById (updateOrderStatus dbOk now store orderId status (some r2)).2 orderId =
          .ok (some o3) ∧ o3.rider = some r) := by
  constructor
  · intro now store orderId o r rid hfind hrider hr
    obtain ⟨o2, happly, hrid⟩ :=
      applyStatus_rider_of_unset o "PickedUp" r rid now hrider hr (by decide)
    have h := updateOrderStatus_success now store orderId "PickedUp" (some r) o o2
      (by decide) (by decide) hfind happly
    obtain ⟨_, hstatus, hhist⟩ := applyStatus_some o o2 _ _ _ happly
    exact ⟨o2, _, h.1, h.2, hrid, hstatus, hhist⟩
  · intro dbOk now store orderId o r r2 status hfind hrider _ _
    obtain ⟨o4, happly4, hrider4⟩ := applyStatus_rider_of_set o status (some r2) now r hrider
    constructor
    · intro o2 h2
      have h3 := (updateOrderStatus_ok_eq dbOk now store orderId status (some r2) o o2 hfind h2).1
      rw [happly4] at h3
      simp only [Option.some.injEq] at h3
      rw [← h3]
      exact hrider4
    · cases hres : (updateOrderStatus dbOk now store orderId status (some r2)).1 with
      | ok o2 =>
        have h3 := updateOrderStatus_ok_eq dbOk now store orderId status (some r2) o o2 hfind hres
        have hid := (applyStatus_some o o2 _ _ _ h3.1).1
        have h4 := h3.1
        rw [happly4] at h4
        simp only [Option.some.injEq] at h4
        refine ⟨o2, ?_, by rw [← h4]; exact hrider4⟩
        rw [h3.2]
        exact findById_updateFirst store orderId (fun _ => o2) o hfind hid
      | error msg =>
        refine ⟨o, ?_, hrider⟩
        rw [updateOrderStatus_error_store dbOk now store orderId status (some r2) msg hres]
        exact hfind

/-- Witness for C4: rider `riderR` picks up the pending order; rider `riderS` then reports
the delivery of an order already assigned to `riderR`. -/
theorem updateOrderStatus_rider_assignment_witness :
    (∃ o2 store2,
      updateOrderStatus true 7 [pendingOrder] orderId1 "PickedUp" (some riderR) =
        (.ok o2, store2) ∧
      findById store2 orderId1 = .ok (some o2) ∧
      o2.rider = some riderR ∧ o2.status = "PickedUp" ∧
      o2.trackingHistory =
        pendingOrder.trackingHistory ++ [{ status := "PickedUp", timestamp := 7 }]) ∧
    ((∀ o2, (updateOrderStatus true 8 [deliveredOrder] orderId1 "Delivered" (some riderS)).1 =
        .ok o2 → o2.rider = some riderR) ∧
      ∃ o3, findById (updateOrderStatus true 8 [deliveredOrder] orderId1 "Delivered"
          (some riderS)).2 orderId1 = .ok (some o3) ∧ o3.rider = some riderR) :=
  ⟨updateOrderStatus_rider_assignment.1 7 [pendingOrder] orderId1 pendingOrder riderR riderR
      (by decide!) rfl (by decide),
   updateOrderStatus_rider_assignment.2 true 8 [deliveredOrder] orderId1 deliveredOrder
      riderR riderS "Delivered" (by decide!) rfl (by decide) (by decide)⟩

/-- A rider id that does not cast to an `ObjectId` is rejected by `save()` and nothing is
stored. -/
theorem updateOrderStatus_malformed_rider :
    updateOrderStatus true 7 [pendingOrder] orderId1 "PickedUp" (some "rider-7") =
      (.error "ValidationError", [pendingOrder]) := by
  decide!

/-- C5, as stated, fails: a delivered order is moved back to `Pending` by
`updateOrderStatus`, which resolves, sets the status and appends a history entry. -/
theorem updateOrderStatus_leaves_delivered :
    updateOrderStatus true 9 [deliveredOrder] orderId1 "Pending" none =
      (.ok { deliveredOrder with
              status := "Pending"
              trackingHistory := deliveredOrder.trackingHistory ++
                [{ status := "Pending", timestamp := 9 }] },
       [{ deliveredOrder with
            status := "Pending"
            trackingHistory := deliveredOrder.trackingHistory ++
              [{ status := "Pending", timestamp := 9 }] }]) ∧
    deliveredOrder.status = "Delivered" := by
  decide!

/-- C5, amended: `updateOrderStatus` does not treat `Delivered` and `Cancelled` as terminal.
For an order whose status is `Delivered` or `Cancelled` the call never rejects with
`IllegalTransition`; a target outside the seven allowed statuses rejects with
`'Invalid status'`; every rejected call leaves the order collection unchanged; and for a
target that the schema accepts as well (`Pending`, `PickedUp`, `Delivered`, `Cancelled`),
with no actor or an actor id that casts to an `ObjectId` and with the write succeeding, the
call resolves to the stored order, whose status is the target and whose history is the old
one with one entry for the target appended. -/
theorem updateOrderStatus_from_terminal (dbOk : Bool) (now : Nat) (store : List Order)
    (orderId target : String) (actorId : Option String) (o : Order)
    (hfind : findById store orderId = .ok (some o))
    (_hterm : o.status = "Delivered" ∨ o.status = "Cancelled") :
    (updateOrderStatus dbOk now store orderId target actorId).1 ≠ .error "IllegalTransition" ∧
    (target ∉ allowedStatuses →
      updateOrderStatus dbOk now store orderId target actorId =
        (.error "Invalid status", store)) ∧
    (∀ msg, (updateOrderStatus dbOk now store orderId target actorId).1 = .error msg →
      (updateOrderStatus dbOk now store orderId target actorId).2 = store) ∧
    (dbOk = true → target ∈ ["Pending", "PickedUp", "Delivered", "Cancelled"] →
      (∀ r, actorId = some r → ∃ rid, castObjectId r = some rid) →
      ∃ o2 store2,
        updateOrderStatus dbOk now store orderId target actorId = (.ok o2, store2) ∧
        findById store2 orderId = .ok (some o2) ∧
        o2.status = target ∧
        o2.trackingHistory = o.trackingHistory ++ [{ status := target, timestamp := now }]) := by
  refine ⟨?_, updateOrderStatus_not_allowed dbOk now store orderId target actorId,
    fun msg h => updateOrderStatus_error_store dbOk now store orderId target actorId msg h, ?_⟩
  · intro h
    have hmem := updateOrderStatus_error_message dbOk now store orderId target actorId _ h
    revert hmem
    decide
  · intro hdb htarget hactor
    subst hdb
    have hs : target ∈ allowedStatuses := by
      simp only [List.mem_cons, List.mem_singleton, List.not_mem_nil, or_false] at htarget
      rcases htarget with rfl | rfl | rfl | rfl <;> decide
    have hv : target ∈ schemaStatusEnum := by
      simp only [List.mem_cons, List.mem_singleton, List.not_mem_nil, or_false] at htarget
      rcases htarget with rfl | rfl | rfl | rfl <;> decide
    obtain ⟨o2, happly⟩ := applyStatus_isSome o target actorId now hactor
    have h := updateOrderStatus_success now store orderId target actorId o o2 hs hv hfind happly
    obtain ⟨_, hstatus, hhist⟩ := applyStatus_some o o2 _ _ _ happly
    exact ⟨o2, _, h.1, h.2, hstatus, hhist⟩

/-- Witness for C5 amended: the delivered order and the target `Cancelled`. -/
theorem updateOrderStatus_from_terminal_witness :
    ∃ o2 store2,
      updateOrderStatus true 9 [deliveredOrder] orderId1 "Cancelled" none = (.ok o2, store2) ∧
      findById store2 orderId1 = .ok (some o2) ∧
      o2.status = "Cancelled" ∧
      o2.trackingHistory =
        deliveredOrder.trackingHistory ++ [{ status := "Cancelled", timestamp := 9 }] :=
  (updateOrderStatus_from_terminal true 9 [deliveredOrder] orderId1 "Cancelled" none
    deliveredOrder (by decide!) (Or.inl rfl)).2.2.2 rfl (by decide) (by simp)

/-- C6: the history invariant fails on the routes of `server.js`. The order stored by
`POST /cart/checkout` has an empty `trackingHistory`; and after `POST /rider/pickup/:id` on
an order made by `createOrder` the status is `PickedUp` while the history is still the
single `Pending` entry, so its last entry differs from the status. -/
theorem routes_break_history_invariant :
    (cartCheckout true orderId1 custC (some pizzaCart) []).store.map
        (fun o => (o.status, o.trackingHistory)) = [("Pending", [])] ∧
    createOrder true 1 orderId1 [{ id := menuId1, name := "Pizza", price := 10 }] [] custC restA
        [{ menuItemId := menuId1, qty := 2 }] none = (.ok pendingOrder, [pendingOrder]) ∧
    (riderPickup true (some riderUser) [pendingOrder] orderId1).2.map
        (fun o => (o.status, o.trackingHistory.map (fun e => e.status))) =
      [("PickedUp", ["Pending"])] := by
  decide!

/-- C10: a session user whose role is `customer` who posts a status update with target
`"Accepted"` to `POST /admin/orders/update/:id`, the one route that takes a target status,
is answered `403 Forbidden` by `requireRole('admin')` and the order collection is unchanged;
the rider routes answer a customer the same way. -/
theorem customer_transition_forbidden (dbOk : Bool) (u : SessionUser) (store : List Order)
    (orderId : String) (h : u.role = "customer") :
    adminOrdersUpdate dbOk (some u) store orderId (some "Accepted") =
      (.send 403 "Forbidden", store) ∧
    riderPickup dbOk (some u) store orderId = (.send 403 "Forbidden", store) ∧
    riderDelivered dbOk (some u) store orderId = (.send 403 "Forbidden", store) := by
  simp [adminOrdersUpdate, riderPickup, riderDelivered, requireRole, h]

/-- Witness for C10: the customer `custC` and the pending order. -/
theorem customer_transition_forbidden_witness :
    adminOrdersUpdate true (some customerUser) [pendingOrder] orderId1 (some "Accepted") =
      (.send 403 "Forbidden", [pendingOrder]) ∧
    riderPickup true (some customerUser) [pendingOrder] orderId1 =
      (.send 403 "Forbidden", [pendingOrder]) ∧
    riderDelivered true (some customerUser) [pendingOrder] orderId1 =
      (.send 403 "Forbidden", [pendingOrder]) :=
  customer_transition_forbidden true customerUser [pendingOrder] orderId1 rfl

/-! ## Cart line invariant -/

theorem incrementFirst_map_itemId (itemId : String) (items : List CartItem) :
    (incrementFirst itemId items).map (fun l => l.itemId) = items.map (fun l => l.itemId) := by
  induction items with
  | nil => rfl
  | cons i rest ih =>
    by_cases hi : i.itemId = itemId
    · simp [incrementFirst, hi]
    · simp [incrementFirst, hi, ih]

theorem incrementFirst_qty (itemId : String) (items : List CartItem)
    (h : ∀ l ∈ items, 1 ≤ l.qty) : ∀ l ∈ incrementFirst itemId items, 1 ≤ l.qty := by
  induction items with
  | nil => simp [incrementFirst]
  | cons i rest ih =>
    have hrest : ∀ l ∈ rest, 1 ≤ l.qty := fun l hl => h l (List.mem_cons_of_mem _ hl)
    by_cases hi : i.itemId = itemId
    · intro l hl
      simp only [incrementFirst, hi, if_true, List.mem_cons] at hl
      rcases hl with rfl | hl
      · simp
      · exact hrest l hl
    · intro l hl
      simp only [incrementFirst, hi, if_false, List.mem_cons] at hl
      rcases hl with rfl | hl
      · exact h _ (List.mem_cons_self _ _)
      · exact ih hrest l hl

/-- The step "add or increment" keeps distinct ids and positive quantities, and leaves at
least one line. -/
theorem addOrIncrement_linesOk (items : List CartItem) (itemId name : String) (price : Rat)
    (hnodup : (items.map (fun l => l.itemId)).Nodup) (hqty : ∀ l ∈ items, 1 ≤ l.qty) :
    LinesOk (addOrIncrement items itemId name price) := by
  by_cases hex : ∃ l ∈ items, l.itemId = itemId
  · rw [addOrIncrement_of_mem _ _ _ _ hex]
    refine ⟨by rw [incrementFirst_map_itemId]; exact hnodup,
      incrementFirst_qty itemId items hqty, ?_⟩
    intro hnil
    have hmap := incrementFirst_map_itemId itemId items
    rw [hnil] at hmap
    obtain ⟨l, hl, _⟩ := hex
    cases items with
    | nil => simp at hl
    | cons x xs => simp at hmap
  · have hall : ∀ l ∈ items, l.itemId ≠ itemId := fun l hl h => hex ⟨l, hl, h⟩
    rw [addOrIncrement_of_not_mem _ _ _ _ hall]
    refine ⟨?_, ?_, by simp⟩
    · rw [List.map_append, List.nodup_append]
      refine ⟨hnodup, by simp, ?_⟩
      intro a ha hb
      simp only [List.map_cons, List.map_nil, List.mem_singleton] at hb
      obtain ⟨l, hl, rfl⟩ := List.mem_map.mp ha
      exact hall l hl hb
    · intro l hl
      rcases List.mem_append.mp hl with h1 | h1
      · exact hqty l h1
      · simp only [List.mem_singleton] at h1
        subst h1
        exact Nat.le_refl 1

theorem addToCart_linesOk (cart : Option Cart) (restaurantId itemId name : String)
    (price : Rat) (hcart : ∀ c, cart = some c → LinesOk c.items) :
    LinesOk (addToCart cart restaurantId itemId name price).items := by
  unfold addToCart
  simp only []
  cases cart with
  | none =>
    split <;> exact addOrIncrement_linesOk _ _ _ _ (by simp [freshCart]) (by simp [freshCart])
  | some c =>
    have h := hcart c rfl
    split
    · exact addOrIncrement_linesOk _ _ _ _ (by simp [freshCart]) (by simp [freshCart])
    · exact addOrIncrement_linesOk _ _ _ _ h.1 h.2.1

theorem cartAdd_linesOk (cart : Option Cart) (req : AddRequest)
    (hcart : ∀ c, cart = some c → LinesOk c.items) (c2 : Cart)
    (h : cartAdd cart req = some c2) : LinesOk c2.items := by
  by_cases hv : validAdd req = true
  · obtain ⟨r, i, n, p, _, _, _, _, hadd⟩ := cartAdd_of_valid cart req hv
    rw [hadd] at h
    simp only [Option.some.injEq] at h
    rw [← h]
    exact addToCart_linesOk cart r i n p hcart
  · have hsame : cartAdd cart req = cart := by
      obtain ⟨r, i, n, p⟩ := req
      cases r <;> cases i <;> cases n <;> cases p <;> simp [cartAdd]
      rename_i r i n p
      intro h1 h2 h3
      simp [validAdd, truthy, h1, h2, h3] at hv
    rw [hsame] at h
    exact hcart c2 h

theorem cartRemove_linesOk (cart : Option Cart) (itemId : Option String)
    (hcart : ∀ c, cart = some c → LinesOk c.items) (c2 : Cart)
    (h : cartRemove cart itemId = some c2) : LinesOk c2.items := by
  cases cart with
  | none => simp [cartRemove] at h
  | some c =>
    have hc := hcart c rfl
    simp only [cartRemove] at h
    split at h
    · simp at h
    · rename_i hlen
      simp only [Option.some.injEq] at h
      rw [← h]
      refine ⟨?_, ?_, ?_⟩
      · exact hc.1.sublist ((List.filter_sublist _).map _)
      · intro l hl
        exact hc.2.1 l (List.mem_of_mem_filter hl)
      · intro hnil
        exact hlen (congrArg List.length hnil)

theorem runCartOps_linesOk (ops : List CartOp) (cart : Option Cart)
    (hcart : ∀ c, cart = some c → LinesOk c.items) (c2 : Cart)
    (h : runCartOps cart ops = some c2) : LinesOk c2.items := by
  induction ops generalizing cart with
  | nil => exact hcart c2 (by simpa [runCartOps] using h)
  | cons op rest ih =>
    refine ih (applyCartOp cart op) ?_ (by simpa [runCartOps] using h)
    intro c hc
    cases op with
    | add req => exact cartAdd_linesOk cart req hcart c hc
    | remove itemId => exact cartRemove_linesOk cart itemId hcart c hc

/-- C15: every cart that a sequence of `POST /cart/add` and `POST /cart/remove` requests
builds from a session without cart has pairwise distinct `itemId`s, every `qty` at least 1,
and at least one line (so a remove never leaves a cart object with zero lines). -/
theorem cart_line_invariant (ops : List CartOp) (c : Cart)
    (h : runCartOps none ops = some c) :
    (c.items.map (fun l => l.itemId)).Nodup ∧ (∀ l ∈ c.items, 1 ≤ l.qty) ∧ c.items ≠ [] :=
  runCartOps_linesOk ops none (fun _ hc => by simp at hc) c h

/-- Witness for C15: the sample sequence ends in the one-line soup cart. -/
theorem cart_line_invariant_witness :
    (soupCart.items.map (fun l => l.itemId)).Nodup ∧ (∀ l ∈ soupCart.items, 1 ≤ l.qty) ∧
      soupCart.items ≠ [] :=
  cart_line_invariant sampleOps soupCart (by decide!)

/-! ## Rejections of `updateOrderStatus` -/

/-- C14, as stated, fails: for the allowed status `Accepted` and the id `no-such-order`,
which no order has, `updateOrderStatus` rejects with the cast error of `findById` and not
with `'Order not found'`. -/
theorem updateOrderStatus_malformed_id :
    updateOrderStatus true 4 [pendingOrder] "no-such-order" "Accepted" none =
      (.error "CastError", [pendingOrder]) ∧
    "Accepted" ∈ allowedStatuses ∧ pendingOrder.id ≠ "no-such-order" := by
  decide!

/-- C14, amended: `updateOrderStatus` rejects with `'Invalid status'` for every status
outside the seven allowed ones; for an allowed status it rejects with `'Order not found'`
when the id is a well-formed `ObjectId` string that no order has, and with a cast error when
the id is not a well-formed `ObjectId` string; in all three cases the order collection is
returned as it was. -/
theorem updateOrderStatus_rejections (dbOk : Bool) (now : Nat) (store : List Order)
    (orderId status : String) (actorId : Option String) :
    (status ∉ ["Pending", "Accepted", "Preparing", "PickedUp", "OutForDelivery", "Delivered",
        "Cancelled"] →
      updateOrderStatus dbOk now store orderId status actorId =
        (.error "Invalid status", store)) ∧
    (status ∈ ["Pending", "Accepted", "Preparing", "PickedUp", "OutForDelivery", "Delivered",
        "Cancelled"] →
      matchesObjectId orderId = true →
      (∀ o ∈ store, sameObjectId o.id orderId = false) →
      updateOrderStatus dbOk now store orderId status actorId =
        (.error "Order not found", store)) ∧
    (status ∈ ["Pending", "Accepted", "Preparing", "PickedUp", "OutForDelivery", "Delivered",
        "Cancelled"] →
      matchesObjectId orderId = false →
      updateOrderStatus dbOk now store orderId status actorId =
        (.error "CastError", store)) := by
  refine ⟨?_, ?_, ?_⟩
  · intro hs
    exact updateOrderStatus_not_allowed dbOk now store orderId status actorId hs
  · intro hs hid hnone
    have hcast : castObjectId orderId = some (String.mk (orderId.toList.map Char.toLower)) := by
      simp [castObjectId, hid]
    exact updateOrderStatus_not_found dbOk now store orderId status actorId hs
      (findById_none_of_forall store orderId _ hcast hnone)
  · intro hs hid
    have hcast : castObjectId orderId = none := by simp [castObjectId, hid]
    exact updateOrderStatus_cast_error dbOk now store orderId status actorId hs hcast

/-- Witness for C14: the status `Paid` is not allowed; no order has the well-formed id
`menuId1`; the id `no-such-order` is not well formed. -/
theorem updateOrderStatus_rejections_witness :
    updateOrderStatus true 4 [pendingOrder] orderId1 "Paid" none =
        (.error "Invalid status", [pendingOrder]) ∧
    updateOrderStatus true 4 [pendingOrder] menuId1 "Accepted" none =
        (.error "Order not found", [pendingOrder]) ∧
    updateOrderStatus true 4 [pendingOrder] "no-such-order" "Accepted" none =
        (.error "CastError", [pendingOrder]) :=
  ⟨(updateOrderStatus_rejections true 4 [pendingOrder] orderId1 "Paid" none).1 (by decide),
   (updateOrderStatus_rejections true 4 [pendingOrder] menuId1 "Accepted" none).2.1 (by decide)
     (by decide) (by decide),
   (updateOrderStatus_rejections true 4 [pendingOrder] "no-such-order" "Accepted" none).2.2
     (by decide) (by decide)⟩

/-! ## Deleting an order -/

theorem eraseP_first_by_id (store : List Order) (id userId : String) (o : Order)
    (hfind : findById store id = .ok (some o)) (hown : sameObjectId o.customer userId = true) :
    ∃ pre post, store = pre ++ o :: post ∧ (∀ x ∈ pre, sameObjectId x.id id = false) ∧
      store.eraseP (matchesIdAndCustomer id userId) = pre ++ post := by
  have hfind2 : store.find? (fun o => sameObjectId o.id id) = some o := by
    unfold findById at hfind
    split at hfind
    · simp at hfind
    · simpa using hfind
  clear hfind
  induction store with
  | nil => simp at hfind2
  | cons x rest ih =>
    by_cases hx : sameObjectId x.id id = true
    · have hxo : x = o := by simpa [List.find?_cons, hx] using hfind2
      subst hxo
      exact ⟨[], rest, rfl, by simp,
        by simp [List.eraseP_cons, matchesIdAndCustomer, hx, hown]⟩
    · have hrest : rest.find? (fun o => sameObjectId o.id id) = some o := by
        simpa [List.find?_cons, hx] using hfind2
      obtain ⟨pre, post, h1, h2, h3⟩ := ih hrest
      refine ⟨x :: pre, post, by simp [h1], ?_,
        by simp [List.eraseP_cons, matchesIdAndCustomer, hx, h3]⟩
      intro y hy
      rcases List.mem_cons.mp hy with rfl | hy
      · simpa using hx
      · exact h2 y hy

/-- C11, as stated, fails: the owner deletes an order whose status is `Delivered`. -/
theorem ordersDelete_removes_delivered :
    ordersDelete true custC [deliveredOrder] orderId1 = (.redirect "/orders", []) ∧
    deliveredOrder.customer = custC ∧ deliveredOrder.status = "Delivered" := by
  decide!

/-- C11, amended: `POST /orders/delete/:id` removes at most one order, and only an order
whose `_id` is the `ObjectId` of the given id and whose customer is the requesting user;
when every order with that `ObjectId` belongs to another customer the collection is
unchanged; and the requesting user's own order is removed when the delete succeeds,
whatever its status. -/
theorem ordersDelete_owner_only (dbOk : Bool) (userId : String) (store : List Order)
    (id : String) :
    ((ordersDelete dbOk userId store id).2 = store ∨
      ∃ pre o post, store = pre ++ o :: post ∧ sameObjectId o.id id = true ∧
        sameObjectId o.customer userId = true ∧
        (ordersDelete dbOk userId store id).2 = pre ++ post) ∧
    ((∀ o ∈ store, sameObjectId o.id id = true → sameObjectId o.customer userId = false) →
      (ordersDelete dbOk userId store id).2 = store) ∧
    (dbOk = true → ∀ o, findById store id = .ok (some o) →
      sameObjectId o.customer userId = true →
      ∃ pre post, store = pre ++ o :: post ∧ (∀ x ∈ pre, sameObjectId x.id id = false) ∧
        (ordersDelete dbOk userId store id).2 = pre ++ post) := by
  by_cases hq : (dbOk && (castObjectId id).isSome && (castObjectId userId).isSome) = true
  · have hres : (ordersDelete dbOk userId store id).2 =
        store.eraseP (matchesIdAndCustomer id userId) := by
      simp [ordersDelete, findOneAndDelete, hq]
    rw [hres]
    refine ⟨?_, ?_, ?_⟩
    · by_cases hex : ∃ a ∈ store, matchesIdAndCustomer id userId a = true
      · obtain ⟨a, hmem, hp⟩ := hex
        obtain ⟨a, l₁, l₂, _, hpa, hstore, herase⟩ := List.exists_of_eraseP hmem hp
        simp only [matchesIdAndCustomer, Bool.and_eq_true] at hpa
        exact Or.inr ⟨l₁, a, l₂, hstore, hpa.1, hpa.2, herase⟩
      · left
        apply List.eraseP_of_forall_not
        intro a ha hp
        exact hex ⟨a, ha, hp⟩
    · intro hother
      apply List.eraseP_of_forall_not
      intro a ha hp
      simp only [matchesIdAndCustomer, Bool.and_eq_true] at hp
      rw [hother a ha hp.1] at hp
      exact Bool.false_ne_true hp.2
    · intro _ o hfind hown
      exact eraseP_first_by_id store id userId o hfind hown
  · have hres : (ordersDelete dbOk userId store id).2 = store := by
      simp only [ordersDelete, findOneAndDelete, hq]
      rfl
    rw [hres]
    refine ⟨Or.inl rfl, fun _ => rfl, ?_⟩
    intro hdb o hfind hown
    exfalso
    apply hq
    obtain ⟨x, _, hx⟩ := (sameObjectId_iff _ _).mp hown
    obtain ⟨y, _, hy⟩ := (sameObjectId_iff _ _).mp (findById_some hfind).1
    simp [hdb, hx, hy]

/-- Witness for C11 amended: another customer cannot delete the pending order, and the
owner deletes it when the id is written in upper case. -/
theorem ordersDelete_owner_only_witness :
    (ordersDelete true custD [pendingOrder] orderId1).2 = [pendingOrder] ∧
    ∃ pre post, [pendingOrder] = pre ++ pendingOrder :: post ∧
      (∀ x ∈ pre, sameObjectId x.id "64B000000000000000000E01" = false) ∧
      (ordersDelete true custC [pendingOrder] "64B000000000000000000E01").2 = pre ++ post :=
  ⟨(ordersDelete_owner_only true custD [pendingOrder] orderId1).2.1 (by decide),
   (ordersDelete_owner_only true custC [pendingOrder] "64B000000000000000000E01").2.2 rfl
     pendingOrder (by decide!) (by decide)⟩

/-! ## The paid-orders listing -/

theorem statusOrder_eq_some (status : String) (x : Int) (h : statusOrder status = some x) :
    (status = "Paid" ∧ x = 1) ∨ (status = "PickedUp" ∧ x = 2) ∨
      (status = "Delivered" ∧ x = 3) := by
  unfold statusOrder at h
  split at h
  · simp only [Option.some.injEq] at h
    exact Or.inl ⟨by assumption, h.symm⟩
  · split at h
    · simp only [Option.some.injEq] at h
      exact Or.inr (Or.inl ⟨by assumption, h.symm⟩)
    · split at h
      · simp only [Option.some.injEq] at h
        exact Or.inr (Or.inr ⟨by assumption, h.symm⟩)
      · simp at h

theorem statusOrder_of_paidStatus (status : String) (h : status ∈ paidStatuses) :
    ∃ x, statusOrder status = some x := by
  simp only [paidStatuses, List.mem_cons, List.mem_singleton, List.not_mem_nil, or_false] at h
  rcases h with rfl | rfl | rfl
  · exact ⟨1, by decide⟩
  · exact ⟨2, by decide⟩
  · exact ⟨3, by decide⟩

/-- On orders whose status is a key of `statusOrder` the comparator orders by rank. -/
theorem compareStatus_le_iff (a b : Order) (ha : a.status ∈ paidStatuses)
    (hb : b.status ∈ paidStatuses) : compareStatus a b ≤ 0 ↔ statusRank a ≤ statusRank b := by
  obtain ⟨x, hx⟩ := statusOrder_of_paidStatus _ ha
  obtain ⟨y, hy⟩ := statusOrder_of_paidStatus _ hb
  simp only [compareStatus, statusRank, hx, hy, Option.getD_some]
  omega

theorem orderedInsert_congr (r s : Order → Order → Prop) [DecidableRel r] [DecidableRel s]
    (a : Order) (l : List Order) (h : ∀ b ∈ l, (r a b ↔ s a b)) :
    l.orderedInsert r a = l.orderedInsert s a := by
  induction l with
  | nil => rfl
  | cons b rest ih =>
    have hb := h b (List.mem_cons_self _ _)
    have hrest := ih (fun c hc => h c (List.mem_cons_of_mem _ hc))
    by_cases hr : r a b
    · simp [List.orderedInsert, hr, hb.mp hr]
    · have hs : ¬ s a b := fun hs => hr (hb.mpr hs)
      simp [List.orderedInsert, hr, hs, hrest]

theorem insertionSort_congr (r s : Order → Order → Prop) [DecidableRel r] [DecidableRel s]
    (l : List Order) (h : ∀ a ∈ l, ∀ b ∈ l, (r a b ↔ s a b)) :
    l.insertionSort r = l.insertionSort s := by
  induction l with
  | nil => rfl
  | cons a rest ih =>
    have hrest := ih (fun x hx y hy =>
      h x (List.mem_cons_of_mem _ hx) y (List.mem_cons_of_mem _ hy))
    simp only [List.insertionSort]
    rw [hrest]
    apply orderedInsert_congr
    intro b hb
    have hb2 : b ∈ rest := (List.perm_insertionSort s rest).mem_iff.mp hb
    exact h a (List.mem_cons_self _ _) b (List.mem_cons_of_mem _ hb2)

/-- Sorting orders whose statuses are keys of `statusOrder` gives a permutation ordered by
rank. -/
theorem sortByStatus_sorted (orders : List Order) (h : ∀ o ∈ orders, o.status ∈ paidStatuses) :
    (sortByStatus orders).Perm orders ∧
      (sortByStatus orders).Pairwise (fun a b => statusRank a ≤ statusRank b) := by
  have hcongr : sortByStatus orders =
      orders.insertionSort (fun a b => statusRank a ≤ statusRank b) := by
    unfold sortByStatus
    apply insertionSort_congr
    intro a ha b hb
    exact compareStatus_le_iff a b (h a ha) (h b hb)
  haveI : IsTotal Order (fun a b => statusRank a ≤ statusRank b) :=
    ⟨fun a b => le_total (statusRank a) (statusRank b)⟩
  haveI : IsTrans Order (fun a b => statusRank a ≤ statusRank b) :=
    ⟨fun a b c hab hbc => le_trans hab hbc⟩
  rw [hcongr]
  exact ⟨List.perm_insertionSort _ orders, List.sorted_insertionSort _ orders⟩

/-- C12: the orders that `GET /orders/paid` lists are a permutation of the customer's orders
with status `Paid`, `PickedUp` or `Delivered`, in non-decreasing order of the ranking
`Paid = 1, PickedUp = 2, Delivered = 3`: no `Paid` order comes after an order of another
status and no order of another status comes after a `Delivered` one, whatever the order of
the collection. -/
theorem ordersPaid_sorted_perm (store : List Order) (userId : String) :
    (ordersPaid store userId).Perm
      (store.filter (fun o => o.customer = userId && paidStatuses.contains o.status)) ∧
    (ordersPaid store userId).Pairwise (fun a b =>
      ∃ x y, statusOrder a.status = some x ∧ statusOrder b.status = some y ∧ x ≤ y) ∧
    (ordersPaid store userId).Pairwise (fun a b =>
      (b.status = "Paid" → a.status = "Paid") ∧
        (a.status = "Delivered" → b.status = "Delivered")) := by
  have hstatus : ∀ o ∈ store.filter
      (fun o => o.customer = userId && paidStatuses.contains o.status),
      o.status ∈ paidStatuses := by
    intro o ho
    have := (List.mem_filter.mp ho).2
    simp at this
    exact this.2
  obtain ⟨hperm, hsorted⟩ := sortByStatus_sorted _ hstatus
  have hranks : (ordersPaid store userId).Pairwise (fun a b =>
      ∃ x y, statusOrder a.status = some x ∧ statusOrder b.status = some y ∧ x ≤ y) := by
    refine List.Pairwise.imp_of_mem ?_ hsorted
    intro a b ha hb hab
    obtain ⟨x, hx⟩ := statusOrder_of_paidStatus _ (hstatus a (hperm.mem_iff.mp ha))
    obtain ⟨y, hy⟩ := statusOrder_of_paidStatus _ (hstatus b (hperm.mem_iff.mp hb))
    refine ⟨x, y, hx, hy, ?_⟩
    simpa [statusRank, hx, hy] using hab
  refine ⟨hperm, hranks, hranks.imp ?_⟩
  intro a b hab
  obtain ⟨x, y, hx, hy, hxy⟩ := hab
  rcases statusOrder_eq_some _ _ hx with ⟨ha, rfl⟩ | ⟨ha, rfl⟩ | ⟨ha, rfl⟩ <;>
    rcases statusOrder_eq_some _ _ hy with ⟨hb, rfl⟩ | ⟨hb, rfl⟩ | ⟨hb, rfl⟩ <;>
    first
      | omega
      | (rw [ha, hb]; decide)

/-- The listing of `mixedStore`, where the delivered order was stored first: the paid order
comes first. -/
theorem ordersPaid_mixedStore : ordersPaid mixedStore custC = [paidOrder, deliveredOrder] := by
  decide!

/-! ## The admin order listing -/

theorem matchesObjectId_iff (s : String) :
    matchesObjectId s = true ↔ s.length = 24 ∧ ∀ c ∈ s.toList, isHexChar c = true := by
  have hlen : s.length = s.toList.length := by cases s; rfl
  rw [hlen]
  simp only [matchesObjectId, Bool.and_eq_true, decide_eq_true_eq, List.all_eq_true]

theorem truthyStr_of_matchesObjectId (raw : String)
    (h : matchesObjectId (jsTrim raw) = true) : truthyStr raw = true := by
  by_cases hraw : raw = ""
  · subst hraw
    have : matchesObjectId (jsTrim "") = false := by decide
    rw [this] at h
    cases h
  · simp [truthyStr, hraw]

/-- C13, as stated, fails: for a well-formed id the handler renders `invalidId: true` when
the query itself fails. -/
theorem adminOrders_valid_id_query_fails :
    adminOrders false [pendingOrder] none (some orderId1) =
      { queries := [{ status := none, id := some orderId1 }], orders := [],
        invalidId := true } ∧
    matchesObjectId (jsTrim orderId1) = true := by
  decide!

/-- C13, amended: for a non-empty id filter that, after trimming, is not exactly 24
hexadecimal characters, `GET /admin/orders` issues no query and renders no orders with
`invalidId = true`; for a filter that is exactly 24 hexadecimal characters after trimming it
leaves the flag `invalidId` false and issues one query that filters on that id (and on the
status filter); the query succeeding, it renders the result of that query with
`invalidId = false`, and the query failing, it renders no orders with `invalidId = true`. -/
theorem adminOrders_id_filter (store : List Order) (statusParam : Option String)
    (raw : String) :
    (raw ≠ "" →
      ¬((jsTrim raw).length = 24 ∧ ∀ c ∈ (jsTrim raw).toList, isHexChar c = true) →
      ∀ dbOk, adminOrders dbOk store statusParam (some raw) =
        { queries := [], orders := [], invalidId := true }) ∧
    (((jsTrim raw).length = 24 ∧ ∀ c ∈ (jsTrim raw).toList, isHexChar c = true) →
      adminOrdersQuery statusParam (some raw) =
        ({ status := statusFilter statusParam, id := some (jsTrim raw) }, false) ∧
      (∀ dbOk, (adminOrders dbOk store statusParam (some raw)).queries =
        [{ status := statusFilter statusParam, id := some (jsTrim raw) }]) ∧
      adminOrders true store statusParam (some raw) =
        { queries := [{ status := statusFilter statusParam, id := some (jsTrim raw) }]
          orders := findOrders store
            { status := statusFilter statusParam, id := some (jsTrim raw) }
          invalidId := false } ∧
      adminOrders false store statusParam (some raw) =
        { queries := [{ status := statusFilter statusParam, id := some (jsTrim raw) }]
          orders := []
          invalidId := true }) := by
  constructor
  · intro hraw hbad dbOk
    have hm : matchesObjectId (jsTrim raw) = false := by
      rw [← Bool.not_eq_true, matchesObjectId_iff]
      exact hbad
    have ht : truthyStr raw = true := by simp [truthyStr, hraw]
    simp [adminOrders, adminOrdersQuery, ht, hm]
  · intro hgood
    have hm : matchesObjectId (jsTrim raw) = true := (matchesObjectId_iff _).mpr hgood
    have ht := truthyStr_of_matchesObjectId raw hm
    refine ⟨by simp [adminOrdersQuery, ht, hm], ?_,
      by simp [adminOrders, adminOrdersQuery, ht, hm],
      by simp [adminOrders, adminOrdersQuery, ht, hm]⟩
    intro dbOk
    cases dbOk <;> simp [adminOrders, adminOrdersQuery, ht, hm]

/-- Witness for C13 amended: the filter `not-a-valid-id`, and a padded 24-character id. -/
theorem adminOrders_id_filter_witness :
    (∀ dbOk, adminOrders dbOk [pendingOrder] none (some "not-a-valid-id") =
        { queries := [], orders := [], invalidId := true }) ∧
    adminOrders true [pendingOrder] none (some " 64B000000000000000000E01 ") =
      { queries := [{ status := statusFilter none,
                      id := some (jsTrim " 64B000000000000000000E01 ") }]
        orders := findOrders [pendingOrder]
          { status := statusFilter none, id := some (jsTrim " 64B000000000000000000E01 ") }
        invalidId := false } :=
  ⟨(adminOrders_id_filter [pendingOrder] none "not-a-valid-id").1 (by decide) (by decide),
   ((adminOrders_id_filter [pendingOrder] none " 64B000000000000000000E01 ").2
      (by decide)).2.2.1⟩

/-- The padded upper-case id of the witness finds the pending order. -/
theorem adminOrders_padded_id :
    (adminOrders true [pendingOrder] none (some " 64B000000000000000000E01 ")).orders =
      [pendingOrder] := by
  decide!

end FoodOrder
